import Mathlib

/-!
Verification of the cache-aside decorator layer of the test-api repository.

The Go source is shallowly embedded: every repository method, usecase and
handler modelled here is a pure Lean function translated from the
corresponding Go function.  External effects are made explicit:

* the Redis store is a value of type `CacheStore` (an association list from
  key strings to serialized payloads with absolute expiry instants, time
  being a `Nat` in nanoseconds, matching Go `time.Duration`);
* each Redis network call that the Go code performs gets a `Bool` fault flag
  (`true` means that one call fails at the network level; for `GET` this is
  also how an absent key presents itself to the Go code, which only checks
  `err == nil`);
* the wrapped MySQL data source is an explicit function argument returning
  `Except String α` (`Except.error` is a non-nil Go `error`);
* JSON (de)serialization is modelled by the tagged type `Payload`:
  `json.Marshal` of a value of type `α` is the corresponding constructor and
  `json.Unmarshal` into type `α` is the partial inverse, so a payload of a
  different shape or a corrupt byte string fails to decode, exactly as a Go
  `json.Unmarshal` type error does;
* Go `int`/`int64` values are modelled as `Int` and every arithmetic
  operation the Go code performs on them is reduced modulo 2^64 into the
  signed 64-bit range by `wrap64`, matching Go's defined two's-complement
  overflow behaviour;
* the goroutine dispatched by the post usecase is modelled as an explicit
  list of pending background tasks returned next to the response.
-/

set_option maxHeartbeats 1000000
set_option linter.unusedVariables false

namespace TestAPI

/-- Go two's-complement 64-bit wrap-around: the value of an `int64`
expression computed exactly in `Int`, reduced into `[-2^63, 2^63)`. -/
def wrap64 (n : Int) : Int := (n + 2 ^ 63) % 2 ^ 64 - 2 ^ 63

/-- Go `int64` subtraction. -/
def goSub (a b : Int) : Int := wrap64 (a - b)

/-- Go `int64` multiplication. -/
def goMul (a b : Int) : Int := wrap64 (a * b)

/-- Decimal digit character, `natDigitChar d` is the ASCII digit for `d < 10`. -/
def natDigitChar (d : Nat) : Char := Char.ofNat (48 + d)

/-- Fuel-driven digit expansion; the fuel argument only forces structural
termination and is irrelevant as long as it exceeds the number. -/
def natReprGo : Nat → Nat → List Char
  | 0, _ => []
  | fuel + 1, n =>
    if n < 10 then [natDigitChar n]
    else natReprGo fuel (n / 10) ++ [natDigitChar (n % 10)]

/-- Decimal representation of a natural number, most significant digit
first; the digit sequence produced by Go `fmt.Sprintf` with verb d. -/
def natReprChars (n : Nat) : List Char := natReprGo (n + 1) n

/-- Go `fmt.Sprintf` with verb d applied to an `int64`. -/
def intRepr (n : Int) : String :=
  if n < 0 then "-" ++ String.mk (natReprChars (-n).toNat)
  else String.mk (natReprChars n.toNat)

/-- Mirror of `domain.User` (api/domain/user.go); `time.Time` fields are
modelled as `Nat` instants, `*int32` as `Option Int`. -/
structure User where
  id : Int
  name : String
  email : String
  age : Option Int
  createdAt : Nat
  updatedAt : Nat
deriving DecidableEq, Repr

/-- Mirror of `domain.Tag` (api/domain/post.go). -/
structure Tag where
  id : Int
  name : String
  slug : String
  description : Option String
  usageCount : Int
  createdAt : Nat
  updatedAt : Nat
deriving DecidableEq, Repr

/-- Mirror of `domain.Comment` (api/domain/post.go). -/
structure Comment where
  id : Int
  postId : Int
  userId : Int
  parentId : Option Int
  content : String
  status : String
  likeCount : Int
  isEdited : Bool
  createdAt : Nat
  updatedAt : Nat
deriving DecidableEq, Repr

/-- Mirror of `domain.CommentWithAuthor` (api/domain/post.go); the embedded
`Comment` becomes an explicit field. -/
structure CommentWithAuthor where
  comment : Comment
  authorUsername : String
  authorDisplayName : Option String
  authorAvatarURL : Option String
deriving DecidableEq, Repr

/-- Mirror of `domain.Post` (api/domain/post.go). -/
structure Post where
  id : Int
  userId : Int
  categoryId : Option Int
  title : String
  slug : String
  content : String
  excerpt : Option String
  status : String
  publishedAt : Option Nat
  viewCount : Int
  likeCount : Int
  commentCount : Int
  isFeatured : Bool
  createdAt : Nat
  updatedAt : Nat
deriving DecidableEq, Repr

/-- Mirror of `domain.PostWithDetails` (api/domain/post.go); the embedded
`Post` becomes an explicit field. -/
structure PostWithDetails where
  post : Post
  authorUsername : String
  authorDisplayName : Option String
  authorAvatarURL : Option String
  categoryName : Option String
  categorySlug : Option String
  tags : List Tag
  latestComments : List CommentWithAuthor
deriving DecidableEq, Repr

/-- Serialized cache payload.  `json.Marshal` of a value is the matching
constructor; `corrupt` stands for any byte string that is not the
serialization of a value of one of the cached shapes. -/
inductive Payload where
  | userVal (u : User)
  | userListVal (l : List User)
  | postVal (p : PostWithDetails)
  | postListVal (l : List PostWithDetails)
  | intVal (n : Int)
  | corrupt (s : String)
deriving DecidableEq, Repr

/-- Unmarshal into `domain.User`; fails on any other payload shape. -/
def decodeUser : Payload → Option User
  | .userVal u => some u
  | _ => none

/-- Unmarshal into a slice of `domain.User`. -/
def decodeUserList : Payload → Option (List User)
  | .userListVal l => some l
  | _ => none

/-- Unmarshal into `domain.PostWithDetails`. -/
def decodePost : Payload → Option PostWithDetails
  | .postVal p => some p
  | _ => none

/-- Unmarshal into a slice of `domain.PostWithDetails`. -/
def decodePostList : Payload → Option (List PostWithDetails)
  | .postListVal l => some l
  | _ => none

/-- Unmarshal into `int64`. -/
def decodeInt : Payload → Option Int
  | .intVal n => some n
  | _ => none

/-- The Redis store contents: key, payload and absolute expiry instant.
An entry is live at instant `now` when `now < expiry`. -/
abbrev CacheStore : Type := List (String × Payload × Nat)

/-- Cache TTL used by both decorators: `5 * time.Minute` in nanoseconds
(cached_user_repository.go / cached_post_repository.go constructors). -/
def ttl : Nat := 5 * 60 * 1000000000

/-- First entry stored under a key, if any. -/
def lookupEntry : CacheStore → String → Option (Payload × Nat)
  | [], _ => none
  | e :: rest, k => if e.1 = k then some e.2 else lookupEntry rest k

/-- Remove every entry stored under a key (Redis `DEL key`). -/
def eraseKey (st : CacheStore) (k : String) : CacheStore :=
  st.filter (fun e => decide (e.1 ≠ k))

/-- Remove every entry stored under any of the given keys
(Redis `DEL key1 key2 ...`). -/
def eraseKeys (st : CacheStore) (ks : List String) : CacheStore :=
  st.filter (fun e => decide (e.1 ∉ ks))

/-- Redis `GET key` as observed by the Go code: `some payload` exactly when
the network call succeeds and a live entry exists; an absent key, an expired
entry and a network failure all present themselves as a non-nil error. -/
def redisGet (st : CacheStore) (now : Nat) (fault : Bool) (k : String) :
    Option Payload :=
  if fault then none
  else
    match lookupEntry st k with
    | some (p, expiry) => if now < expiry then some p else none
    | none => none

/-- Redis `SET key payload ttl`: on network failure the store is unchanged
(the Go code ignores the returned error). -/
def redisSet (st : CacheStore) (now : Nat) (fault : Bool) (k : String)
    (p : Payload) : CacheStore :=
  if fault then st else (k, p, now + ttl) :: eraseKey st k

/-- Redis `DEL key`: on network failure the store is unchanged. -/
def redisDel (st : CacheStore) (fault : Bool) (k : String) : CacheStore :=
  if fault then st else eraseKey st k

/-- Redis `DEL key1 key2 ...`: on network failure the store is unchanged. -/
def redisDelMany (st : CacheStore) (fault : Bool) (ks : List String) :
    CacheStore :=
  if fault then st else eraseKeys st ks

/-- Glob match for the one pattern the code uses, `posts:*`: every key whose
first six characters are `posts:` matches. -/
def matchesPostsStar (k : String) : Bool :=
  "posts:".data.isPrefixOf k.data

/-- Redis `KEYS posts:*`: the live keys matching the pattern.  On network
failure the Go code discards the error and is left with a nil slice. -/
def redisKeysPostsStar (st : CacheStore) (now : Nat) (fault : Bool) :
    List String :=
  if fault then []
  else (st.filter (fun e => matchesPostsStar e.1 && decide (now < e.2.2))).map
    (fun e => e.1)

/-- Result of one cached read: the value or error returned to the caller,
the resulting store, whether the wrapped data source was invoked, and how
many Cache Store network calls were issued. -/
structure ReadOutcome (α : Type) where
  result : Except String α
  store : CacheStore
  dsCalled : Bool
  cacheCalls : Nat
deriving Repr

/-- Cache-miss path shared by every read method of both decorators: query
the data source; on error return it unchanged without touching the cache;
on success marshal and best-effort `SET`. -/
def readMiss (α : Type) (key : String) (encode : α → Payload)
    (ds : Except String α) (st : CacheStore) (now : Nat) (fSet : Bool) :
    ReadOutcome α :=
  match ds with
  | .error e => ⟨.error e, st, true, 1⟩
  | .ok v => ⟨.ok v, redisSet st now fSet key (encode v), true, 2⟩

/-- Read-through template shared verbatim by every read method of
`cachedUserRepository` and `cachedPostRepository`: try `GET`; on success
try to unmarshal and return the hit; any failure (fault, absent, expired,
wrong shape) falls through to the miss path. -/
def readThrough (α : Type) (key : String) (encode : α → Payload)
    (decode : Payload → Option α) (ds : Except String α) (st : CacheStore)
    (now : Nat) (fGet fSet : Bool) : ReadOutcome α :=
  match redisGet st now fGet key with
  | some payload =>
    match decode payload with
    | some v => ⟨.ok v, st, false, 1⟩
    | none => readMiss α key encode ds st now fSet
  | none => readMiss α key encode ds st now fSet

/-- Key helper `getCacheKey` of cached_user_repository.go. -/
def getCacheKey (id : Int) : String := "user:" ++ intRepr id

/-- Key literal of `cachedUserRepository.FindAll`. -/
def usersAllKey : String := "users:all"

/-- Key helper `getPostCacheKey` of cached_post_repository.go. -/
def getPostCacheKey (id : Int) : String := "post:" ++ intRepr id

/-- Key of `cachedPostRepository.FindBySlugWithDetails`. -/
def postSlugKey (slug : String) : String := "post:slug:" ++ slug

/-- Key of `cachedPostRepository.FindAllWithDetails`. -/
def postsAllKey (limit offset : Int) : String :=
  "posts:all:limit=" ++ intRepr limit ++ ":offset=" ++ intRepr offset

/-- Key of `cachedPostRepository.FindByCategoryWithDetails`. -/
def postsCategoryKey (slug : String) (limit offset : Int) : String :=
  "posts:category:" ++ slug ++ ":limit=" ++ intRepr limit ++ ":offset=" ++
    intRepr offset

/-- Key of `cachedPostRepository.FindByTagWithDetails`. -/
def postsTagKey (slug : String) (limit offset : Int) : String :=
  "posts:tag:" ++ slug ++ ":limit=" ++ intRepr limit ++ ":offset=" ++
    intRepr offset

/-- Key of `cachedPostRepository.FindFeaturedWithDetails`. -/
def postsFeaturedKey (limit : Int) : String :=
  "posts:featured:limit=" ++ intRepr limit

/-- Key literal of `cachedPostRepository.GetTotalCount`. -/
def postsTotalCountKey : String := "posts:totalcount"

namespace CachedUserRepository

/-- `cachedUserRepository.FindAll` (cached_user_repository.go, lines 41-67). -/
def FindAll (ds : Except String (List User)) (st : CacheStore) (now : Nat)
    (fGet fSet : Bool) : ReadOutcome (List User) :=
  readThrough (List User) usersAllKey Payload.userListVal decodeUserList ds
    st now fGet fSet

/-- `cachedUserRepository.FindByID` (cached_user_repository.go, lines 69-95). -/
def FindByID (ds : Int → Except String User) (id : Int) (st : CacheStore)
    (now : Nat) (fGet fSet : Bool) : ReadOutcome User :=
  readThrough User (getCacheKey id) Payload.userVal decodeUser (ds id)
    st now fGet fSet

/-- `cachedUserRepository.Create` (cached_user_repository.go, lines 97-108).
The base repository's `Create` assigns the new ID by mutating the passed
user; it is modelled as returning the stored user.  On success the single
key `users:all` is deleted. -/
def Create (ds : User → Except String User) (user : User) (st : CacheStore)
    (fDel : Bool) : Except String User × CacheStore :=
  match ds user with
  | .error e => (.error e, st)
  | .ok stored => (.ok stored, redisDel st fDel usersAllKey)

/-- `cachedUserRepository.Update` (cached_user_repository.go, lines 110-122). -/
def Update (ds : User → Except String Unit) (user : User) (st : CacheStore)
    (fDel1 fDel2 : Bool) : Except String Unit × CacheStore :=
  match ds user with
  | .error e => (.error e, st)
  | .ok _ =>
    (.ok (), redisDel (redisDel st fDel1 (getCacheKey user.id)) fDel2
      usersAllKey)

/-- `cachedUserRepository.Delete` (cached_user_repository.go, lines 124-136). -/
def Delete (ds : Int → Except String Unit) (id : Int) (st : CacheStore)
    (fDel1 fDel2 : Bool) : Except String Unit × CacheStore :=
  match ds id with
  | .error e => (.error e, st)
  | .ok _ =>
    (.ok (), redisDel (redisDel st fDel1 (getCacheKey id)) fDel2 usersAllKey)

end CachedUserRepository

namespace CachedPostRepository

/-- `cachedPostRepository.FindAllWithDetails` (cached_post_repository.go,
lines 31-57). -/
def FindAllWithDetails (ds : Int → Int → Except String (List PostWithDetails))
    (limit offset : Int) (st : CacheStore) (now : Nat) (fGet fSet : Bool) :
    ReadOutcome (List PostWithDetails) :=
  readThrough (List PostWithDetails) (postsAllKey limit offset)
    Payload.postListVal decodePostList (ds limit offset) st now fGet fSet

/-- `cachedPostRepository.FindByIDWithDetails` (cached_post_repository.go,
lines 59-85). -/
def FindByIDWithDetails (ds : Int → Except String PostWithDetails)
    (id : Int) (st : CacheStore) (now : Nat) (fGet fSet : Bool) :
    ReadOutcome PostWithDetails :=
  readThrough PostWithDetails (getPostCacheKey id) Payload.postVal decodePost
    (ds id) st now fGet fSet

/-- `cachedPostRepository.FindBySlugWithDetails` (cached_post_repository.go,
lines 87-113). -/
def FindBySlugWithDetails (ds : String → Except String PostWithDetails)
    (slug : String) (st : CacheStore) (now : Nat) (fGet fSet : Bool) :
    ReadOutcome PostWithDetails :=
  readThrough PostWithDetails (postSlugKey slug) Payload.postVal decodePost
    (ds slug) st now fGet fSet

/-- `cachedPostRepository.FindByCategoryWithDetails`
(cached_post_repository.go, lines 115-141). -/
def FindByCategoryWithDetails
    (ds : String → Int → Int → Except String (List PostWithDetails))
    (categorySlug : String) (limit offset : Int) (st : CacheStore)
    (now : Nat) (fGet fSet : Bool) : ReadOutcome (List PostWithDetails) :=
  readThrough (List PostWithDetails) (postsCategoryKey categorySlug limit offset)
    Payload.postListVal decodePostList (ds categorySlug limit offset)
    st now fGet fSet

/-- `cachedPostRepository.FindByTagWithDetails` (cached_post_repository.go,
lines 143-169). -/
def FindByTagWithDetails
    (ds : String → Int → Int → Except String (List PostWithDetails))
    (tagSlug : String) (limit offset : Int) (st : CacheStore) (now : Nat)
    (fGet fSet : Bool) : ReadOutcome (List PostWithDetails) :=
  readThrough (List PostWithDetails) (postsTagKey tagSlug limit offset)
    Payload.postListVal decodePostList (ds tagSlug limit offset)
    st now fGet fSet

/-- `cachedPostRepository.FindFeaturedWithDetails`
(cached_post_repository.go, lines 171-197). -/
def FindFeaturedWithDetails
    (ds : Int → Except String (List PostWithDetails)) (limit : Int)
    (st : CacheStore) (now : Nat) (fGet fSet : Bool) :
    ReadOutcome (List PostWithDetails) :=
  readThrough (List PostWithDetails) (postsFeaturedKey limit)
    Payload.postListVal decodePostList (ds limit) st now fGet fSet

/-- `cachedPostRepository.GetTotalCount` (cached_post_repository.go,
lines 199-225). -/
def GetTotalCount (ds : Except String Int) (st : CacheStore) (now : Nat)
    (fGet fSet : Bool) : ReadOutcome Int :=
  readThrough Int postsTotalCountKey Payload.intVal decodeInt ds
    st now fGet fSet

/-- `cachedPostRepository.IncrementViewCount` (cached_post_repository.go,
lines 227-244): data-source increment first, then best-effort deletion of
the post's own key, then a `KEYS posts:*` scan whose error is discarded,
then one multi-key `DEL` if any key matched. -/
def IncrementViewCount (ds : Int → Except String Unit) (postID : Int)
    (st : CacheStore) (now : Nat) (fDel1 fKeys fDel2 : Bool) :
    Except String Unit × CacheStore :=
  match ds postID with
  | .error e => (.error e, st)
  | .ok _ =>
    let st1 := redisDel st fDel1 (getPostCacheKey postID)
    let keys := redisKeysPostsStar st1 now fKeys
    let st2 := if 0 < keys.length then redisDelMany st1 fDel2 keys else st1
    (.ok (), st2)

end CachedPostRepository

/-- A background unit of work dispatched with the go keyword and never
awaited (usecase/post_usecase.go). -/
inductive BgTask where
  | incrementViewCount (id : Int)
deriving DecidableEq, Repr

/-- Result of a post usecase read: the value or error returned to the
caller together with the background tasks dispatched before returning. -/
structure UsecaseOutcome (α : Type) where
  result : Except String α
  bgTasks : List BgTask
deriving Repr

namespace PostUsecase

/-- `postUsecase.GetPosts` (usecase/post_usecase.go, lines 236-257),
parameterized by the repository behaviours it calls.  `fmt.Errorf`
wrapping is modelled as prefix concatenation. -/
def GetPosts (repoFindAll : Int → Int → Except String (List PostWithDetails))
    (repoTotal : Except String Int) (page pageSize : Int) :
    Except String (List PostWithDetails × Int) :=
  let page1 := if page < 1 then 1 else page
  let pageSize1 := if pageSize < 1 || pageSize > 100 then 20 else pageSize
  let offset := goMul (goSub page1 1) pageSize1
  match repoFindAll pageSize1 offset with
  | .error e => .error ("failed to get posts: " ++ e)
  | .ok posts =>
    match repoTotal with
    | .error e => .error ("failed to get total count: " ++ e)
    | .ok total => .ok (posts, total)

/-- `postUsecase.GetPostByID` (usecase/post_usecase.go, lines 260-276): on a
successful fetch a view-count increment is dispatched as a non-awaited
background task. -/
def GetPostByID (repoFind : Int → Except String PostWithDetails) (id : Int) :
    UsecaseOutcome PostWithDetails :=
  if id ≤ 0 then ⟨.error ("invalid post ID: " ++ intRepr id), []⟩
  else
    match repoFind id with
    | .error e => ⟨.error ("failed to get post: " ++ e), []⟩
    | .ok post => ⟨.ok post, [BgTask.incrementViewCount id]⟩

/-- `postUsecase.GetPostBySlug` (usecase/post_usecase.go, lines 279-295);
the dispatched increment uses the ID of the fetched post. -/
def GetPostBySlug (repoFind : String → Except String PostWithDetails)
    (slug : String) : UsecaseOutcome PostWithDetails :=
  if slug = "" then ⟨.error ("slug cannot be empty"), []⟩
  else
    match repoFind slug with
    | .error e => ⟨.error ("failed to get post: " ++ e), []⟩
    | .ok post => ⟨.ok post, [BgTask.incrementViewCount post.post.id]⟩

/-- `postUsecase.GetPostsByCategory` (usecase/post_usecase.go,
lines 298-318). -/
def GetPostsByCategory
    (repoFind : String → Int → Int → Except String (List PostWithDetails))
    (categorySlug : String) (page pageSize : Int) :
    Except String (List PostWithDetails) :=
  if categorySlug = "" then .error ("category slug cannot be empty")
  else
    let page1 := if page < 1 then 1 else page
    let pageSize1 := if pageSize < 1 || pageSize > 100 then 20 else pageSize
    let offset := goMul (goSub page1 1) pageSize1
    match repoFind categorySlug pageSize1 offset with
    | .error e => .error ("failed to get posts by category: " ++ e)
    | .ok posts => .ok posts

/-- `postUsecase.GetPostsByTag` (usecase/post_usecase.go, lines 321-341). -/
def GetPostsByTag
    (repoFind : String → Int → Int → Except String (List PostWithDetails))
    (tagSlug : String) (page pageSize : Int) :
    Except String (List PostWithDetails) :=
  if tagSlug = "" then .error ("tag slug cannot be empty")
  else
    let page1 := if page < 1 then 1 else page
    let pageSize1 := if pageSize < 1 || pageSize > 100 then 20 else pageSize
    let offset := goMul (goSub page1 1) pageSize1
    match repoFind tagSlug pageSize1 offset with
    | .error e => .error ("failed to get posts by tag: " ++ e)
    | .ok posts => .ok posts

/-- Running one dispatched background task
(usecase/post_usecase.go, the go func literal): the increment's error is
assigned to the blank identifier, so the task produces nothing and its
outcome cannot influence anything. -/
def runBgTask (incr : Int → Except String Unit) : BgTask → Unit
  | .incrementViewCount id =>
    match incr id with
    | _ => ()

end PostUsecase

namespace UserUsecase

/-- `userUsecase.CreateUser` (usecase/user_usecase.go): builds the domain
user and delegates to the repository's `Create`, here the cache decorator's. -/
def CreateUser (ds : User → Except String User) (name email : String)
    (age : Option Int) (st : CacheStore) (fDel : Bool) :
    Except String User × CacheStore :=
  let user : User := ⟨0, name, email, age, 0, 0⟩
  match CachedUserRepository.Create ds user st fDel with
  | (.error e, st1) => (.error e, st1)
  | (.ok stored, st1) => (.ok stored, st1)

/-- `userUsecase.UpdateUser` (usecase/user_usecase.go): reads the current
record through the repository (here the cache decorator, so this read is
itself a read-through), applies the partial update, writes it back. -/
def UpdateUser (dsFind : Int → Except String User)
    (dsUpdate : User → Except String Unit) (id : Int)
    (name email : Option String) (age : Option Int) (st : CacheStore)
    (now : Nat) (fGet fSet fDel1 fDel2 : Bool) :
    Except String User × CacheStore :=
  let found := CachedUserRepository.FindByID dsFind id st now fGet fSet
  match found.result with
  | .error e => (.error e, found.store)
  | .ok user =>
    let user1 : User :=
      { user with
        name := name.getD user.name
        email := email.getD user.email
        age := match age with | some a => some a | none => user.age }
    match CachedUserRepository.Update dsUpdate user1 found.store fDel1 fDel2 with
    | (.error e, st1) => (.error e, st1)
    | (.ok _, st1) => (.ok user1, st1)

/-- `userUsecase.DeleteUser` (usecase/user_usecase.go): direct delegation to
the repository's `Delete`, here the cache decorator's. -/
def DeleteUser (ds : Int → Except String Unit) (id : Int) (st : CacheStore)
    (fDel1 fDel2 : Bool) : Except String Unit × CacheStore :=
  CachedUserRepository.Delete ds id st fDel1 fDel2

end UserUsecase

/-- `parseNoCache` (interfaces/handler/echo_bridge.go, lines 70-73), applied
to the raw value of the `no_cache` query parameter; an absent parameter
reads as the empty string in echo. -/
def parseNoCache (noCache : String) : Bool :=
  noCache == "true" || noCache == "1"

/-- `PostHandlerV2.selectUsecase` (interfaces/handler/post_handler_v2.go,
lines 24-29): the direct usecase exactly when the flag is set, the
cache-backed one otherwise.  Parametric in the usecase representation. -/
def selectUsecase {α : Type} (postUsecase directPostUsecase : α)
    (noCache : Bool) : α :=
  if noCache then directPostUsecase else postUsecase

/-- Result of one fully wired read endpoint: value or error, resulting
Cache Store contents, number of Cache Store network calls issued on the
response path, and the dispatched background tasks. -/
structure EndpointOutcome (α : Type) where
  result : Except String α
  store : CacheStore
  cacheCalls : Nat
  bgTasks : List BgTask
deriving Repr

/-- GET posts by id, fully wired as in cmd/main.go: the bridge parses
`no_cache` (echo_bridge.go GetPostByID), the handler selects the direct or
the cache-backed usecase (post_handler_v2.go), and `postUsecase.GetPostByID`
runs against the base repository directly or against the decorator
`cachedPostRepository.FindByIDWithDetails`. -/
def endpointGetPostByID (noCacheParam : String)
    (ds : Int → Except String PostWithDetails) (id : Int) (st : CacheStore)
    (now : Nat) (fGet fSet : Bool) : EndpointOutcome PostWithDetails :=
  let noCache := parseNoCache noCacheParam
  if noCache then
    let r := PostUsecase.GetPostByID ds id
    ⟨r.result, st, 0, r.bgTasks⟩
  else
    if id ≤ 0 then ⟨.error ("invalid post ID: " ++ intRepr id), st, 0, []⟩
    else
      let r := CachedPostRepository.FindByIDWithDetails ds id st now fGet fSet
      match r.result with
      | .error e => ⟨.error ("failed to get post: " ++ e), r.store, r.cacheCalls, []⟩
      | .ok post => ⟨.ok post, r.store, r.cacheCalls, [BgTask.incrementViewCount id]⟩

/-- Modelled from the spec: the OpenAPI-generated binding of the `no_cache`
query parameter for the user endpoints (package `gen`, absent from the
source tree; only its caller user_handler_v2.go is present).  Per the spec,
the accepted values are the strings true and 1 for true and anything else
is false, the parameter defaulting to absent. -/
def genBindNoCache (raw : Option String) : Option Bool :=
  match raw with
  | none => none
  | some v => some (v == "true" || v == "1")

/-- GET users, fully wired as in cmd/main.go: the generated binding
produces `params.NoCache`, `UserHandlerV2.GetUsers` (user_handler_v2.go,
lines 30-60) bypasses exactly when the pointer is non-nil and true, and
`userUsecase.GetAllUsers` delegates to the base repository or to the
decorator `cachedUserRepository.FindAll`. -/
def endpointGetUsers (noCacheRaw : Option String)
    (ds : Except String (List User)) (st : CacheStore) (now : Nat)
    (fGet fSet : Bool) : EndpointOutcome (List User) :=
  let params := genBindNoCache noCacheRaw
  let bypass := match params with
    | some b => b
    | none => false
  if bypass then ⟨ds, st, 0, []⟩
  else
    let r := CachedUserRepository.FindAll ds st now fGet fSet
    ⟨r.result, r.store, r.cacheCalls, []⟩

/-- POST users, fully wired as in cmd/main.go: `UserHandlerV2.CreateUser`
(user_handler_v2.go, lines 97-126) binds the body and then always uses the
cache-backed usecase; the `no_cache` query parameter is part of the request
but is never consulted on this path. -/
def endpointCreateUser (noCacheParam : String) (bindOk : Bool)
    (ds : User → Except String User) (name email : String) (age : Option Int)
    (st : CacheStore) (fDel : Bool) : Except String User × CacheStore :=
  if !bindOk then (.error ("Invalid request body"), st)
  else UserUsecase.CreateUser ds name email age st fDel

/-- PUT users by id, fully wired as in cmd/main.go: `UserHandlerV2.UpdateUser`
(user_handler_v2.go, lines 129-169) binds the body and then always uses the
cache-backed usecase; `no_cache` is never consulted on this path. -/
def endpointUpdateUser (noCacheParam : String) (bindOk : Bool)
    (dsFind : Int → Except String User) (dsUpdate : User → Except String Unit)
    (id : Int) (name email : Option String) (age : Option Int)
    (st : CacheStore) (now : Nat) (fGet fSet fDel1 fDel2 : Bool) :
    Except String User × CacheStore :=
  if !bindOk then (.error ("Invalid request body"), st)
  else UserUsecase.UpdateUser dsFind dsUpdate id name email age st now
    fGet fSet fDel1 fDel2

/-- DELETE users by id, fully wired as in cmd/main.go:
`UserHandlerV2.DeleteUser` (user_handler_v2.go, lines 172-190) always uses
the cache-backed usecase; `no_cache` is never consulted on this path. -/
def endpointDeleteUser (noCacheParam : String)
    (ds : Int → Except String Unit) (id : Int) (st : CacheStore)
    (fDel1 fDel2 : Bool) : Except String Unit × CacheStore :=
  UserUsecase.DeleteUser ds id st fDel1 fDel2

/-- One read call of either decorator, together with its parameters: the
nine cacheable queries of the system.  Used to state key-derivation
injectivity across operations. -/
inductive ReadCall where
  | userAll
  | userByID (id : Int)
  | postAll (limit offset : Int)
  | postByID (id : Int)
  | postBySlug (slug : String)
  | postsByCategory (slug : String) (limit offset : Int)
  | postsByTag (slug : String) (limit offset : Int)
  | postsFeatured (limit : Int)
  | postsTotalCount
deriving DecidableEq, Repr

/-- The cache key each read call derives, exactly as the corresponding Go
method computes it. -/
def deriveKey : ReadCall → String
  | .userAll => usersAllKey
  | .userByID id => getCacheKey id
  | .postAll limit offset => postsAllKey limit offset
  | .postByID id => getPostCacheKey id
  | .postBySlug slug => postSlugKey slug
  | .postsByCategory slug limit offset => postsCategoryKey slug limit offset
  | .postsByTag slug limit offset => postsTagKey slug limit offset
  | .postsFeatured limit => postsFeaturedKey limit
  | .postsTotalCount => postsTotalCountKey

/-! Auxiliary facts about the decimal representation used in cache keys. -/

/-- Numeric value of a digit string, used to invert `natReprChars`. -/
def charsVal (l : List Char) : Nat :=
  l.foldl (fun a c => 10 * a + (c.toNat - 48)) 0

theorem natDigitChar_toNat {d : Nat} (h : d < 10) :
    (natDigitChar d).toNat = 48 + d := by
  unfold natDigitChar
  interval_cases d <;> decide

theorem natReprGo_fuel (n : Nat) : ∀ f1 f2 : Nat, n < f1 → n < f2 →
    natReprGo f1 n = natReprGo f2 n := by
  induction n using Nat.strong_induction_on with
  | _ n ih =>
    intro f1 f2 h1 h2
    match f1, f2 with
    | g1 + 1, g2 + 1 =>
      show natReprGo (g1 + 1) n = natReprGo (g2 + 1) n
      unfold natReprGo
      split
      · rfl
      · rename_i hge
        have hdiv : n / 10 < n := Nat.div_lt_self (by omega) (by omega)
        rw [ih (n / 10) hdiv g1 g2 (by omega) (by omega)]

theorem natReprChars_unfold (n : Nat) :
    natReprChars n = if n < 10 then [natDigitChar n]
      else natReprChars (n / 10) ++ [natDigitChar (n % 10)] := by
  show natReprGo (n + 1) n = _
  unfold natReprGo
  split
  · rfl
  · rename_i hge
    have hdiv : n / 10 < n := Nat.div_lt_self (by omega) (by omega)
    rw [natReprGo_fuel (n / 10) n (n / 10 + 1) hdiv (by omega)]
    rfl

theorem natReprChars_ne_nil (n : Nat) : natReprChars n ≠ [] := by
  rw [natReprChars_unfold]
  split <;> simp

theorem natReprChars_mem (n : Nat) :
    ∀ c ∈ natReprChars n, 48 ≤ c.toNat ∧ c.toNat ≤ 57 := by
  induction n using Nat.strong_induction_on with
  | _ n ih =>
    rw [natReprChars_unfold]
    split
    · rename_i h
      intro c hc
      simp only [List.mem_singleton] at hc
      subst hc
      rw [natDigitChar_toNat h]
      omega
    · rename_i h
      intro c hc
      rcases List.mem_append.mp hc with h1 | h2
      · exact ih (n / 10) (Nat.div_lt_self (by omega) (by omega)) c h1
      · simp only [List.mem_singleton] at h2
        subst h2
        rw [natDigitChar_toNat (Nat.mod_lt _ (by omega))]
        omega

theorem charsVal_append (l : List Char) (c : Char) :
    charsVal (l ++ [c]) = 10 * charsVal l + (c.toNat - 48) := by
  unfold charsVal
  rw [List.foldl_append]
  rfl

theorem charsVal_natReprChars (n : Nat) : charsVal (natReprChars n) = n := by
  induction n using Nat.strong_induction_on with
  | _ n ih =>
    rw [natReprChars_unfold]
    split
    · rename_i h
      show charsVal [natDigitChar n] = n
      unfold charsVal
      simp only [List.foldl_cons, List.foldl_nil]
      rw [natDigitChar_toNat h]
      omega
    · rename_i h
      rw [charsVal_append, ih (n / 10) (Nat.div_lt_self (by omega) (by omega)),
        natDigitChar_toNat (Nat.mod_lt _ (by omega))]
      omega

theorem natReprChars_inj {a b : Nat} (h : natReprChars a = natReprChars b) :
    a = b := by
  have hv := congrArg charsVal h
  rwa [charsVal_natReprChars, charsVal_natReprChars] at hv

theorem strDataAppend (s t : String) : (s ++ t).data = s.data ++ t.data := by
  cases s; cases t; rfl

theorem strDataInj {s t : String} (h : s.data = t.data) : s = t := by
  cases s; cases t; exact congrArg String.mk h

theorem intRepr_data_nonneg {n : Int} (h : 0 ≤ n) :
    (intRepr n).data = natReprChars n.toNat := by
  unfold intRepr
  rw [if_neg (by omega)]

theorem intRepr_data_neg {n : Int} (h : n < 0) :
    (intRepr n).data = '-' :: natReprChars (-n).toNat := by
  unfold intRepr
  rw [if_pos h, strDataAppend]
  rfl

theorem intRepr_mem (n : Int) :
    ∀ c ∈ (intRepr n).data, 45 ≤ c.toNat ∧ c.toNat ≤ 57 := by
  by_cases h : n < 0
  · rw [intRepr_data_neg h]
    intro c hc
    rcases List.mem_cons.mp hc with h1 | h2
    · subst h1; decide
    · have := natReprChars_mem (-n).toNat c h2
      omega
  · rw [intRepr_data_nonneg (by omega)]
    intro c hc
    have := natReprChars_mem n.toNat c hc
    omega

theorem intRepr_data_ne_nil (n : Int) : (intRepr n).data ≠ [] := by
  by_cases h : n < 0
  · rw [intRepr_data_neg h]; simp
  · rw [intRepr_data_nonneg (by omega)]
    exact natReprChars_ne_nil _

theorem intRepr_inj {a b : Int} (h : intRepr a = intRepr b) : a = b := by
  have hd := congrArg String.data h
  by_cases ha : a < 0 <;> by_cases hb : b < 0
  · rw [intRepr_data_neg ha, intRepr_data_neg hb] at hd
    have := natReprChars_inj (List.cons.inj hd).2
    omega
  · rw [intRepr_data_neg ha, intRepr_data_nonneg (by omega)] at hd
    rcases hn : natReprChars b.toNat with _ | ⟨c, cs⟩
    · exact absurd hn (natReprChars_ne_nil _)
    · rw [hn] at hd
      have hc : c ∈ natReprChars b.toNat := by rw [hn]; simp
      have := natReprChars_mem b.toNat c hc
      have hminus : '-' = c := (List.cons.inj hd).1
      rw [← hminus] at this
      simp at this
  · rw [intRepr_data_nonneg (by omega), intRepr_data_neg hb] at hd
    rcases hn : natReprChars a.toNat with _ | ⟨c, cs⟩
    · exact absurd hn (natReprChars_ne_nil _)
    · rw [hn] at hd
      have hc : c ∈ natReprChars a.toNat := by rw [hn]; simp
      have := natReprChars_mem a.toNat c hc
      have hminus : c = '-' := (List.cons.inj hd).1
      rw [hminus] at this
      simp at this
  · rw [intRepr_data_nonneg (by omega), intRepr_data_nonneg (by omega)] at hd
    have := natReprChars_inj hd
    omega

theorem intRepr_no_colon (n : Int) : ∀ c ∈ (intRepr n).data, c ≠ ':' := by
  intro c hc he
  have := intRepr_mem n c hc
  subst he
  simp at this

/-! Splitting concatenations at a delimiter character. -/

theorem splitFirstColon {a1 a2 b1 b2 : List Char}
    (h1 : ∀ c ∈ a1, c ≠ ':') (h2 : ∀ c ∈ a2, c ≠ ':')
    (h : a1 ++ ':' :: b1 = a2 ++ ':' :: b2) : a1 = a2 ∧ b1 = b2 := by
  induction a1 generalizing a2 with
  | nil =>
    cases a2 with
    | nil => simpa using h
    | cons y ys =>
      exfalso
      simp only [List.nil_append, List.cons_append, List.cons.injEq] at h
      exact h2 y (by simp) h.1.symm
  | cons x xs ih =>
    cases a2 with
    | nil =>
      exfalso
      simp only [List.nil_append, List.cons_append, List.cons.injEq] at h
      exact h1 x (by simp) h.1
    | cons y ys =>
      simp only [List.cons_append, List.cons.injEq] at h
      obtain ⟨hxy, htail⟩ := h
      obtain ⟨he, hb⟩ := ih (fun c hc => h1 c (List.mem_cons_of_mem x hc))
        (fun c hc => h2 c (List.mem_cons_of_mem y hc)) htail
      exact ⟨by rw [hxy, he], hb⟩

theorem splitLastColon {a1 a2 b1 b2 : List Char}
    (h1 : ∀ c ∈ b1, c ≠ ':') (h2 : ∀ c ∈ b2, c ≠ ':')
    (h : a1 ++ ':' :: b1 = a2 ++ ':' :: b2) : a1 = a2 ∧ b1 = b2 := by
  have hr := congrArg List.reverse h
  simp only [List.reverse_append, List.reverse_cons] at hr
  rw [List.append_assoc, List.append_assoc] at hr
  simp only [List.singleton_append] at hr
  obtain ⟨hb, ha⟩ := splitFirstColon
    (fun c hc => h1 c (List.mem_reverse.mp hc))
    (fun c hc => h2 c (List.mem_reverse.mp hc)) hr
  exact ⟨List.reverse_injective ha, List.reverse_injective hb⟩

theorem keyNe {s t : String} {i : Nat} {a b : Char}
    (hs : s.data[i]? = some a) (ht : t.data[i]? = some b) (hab : a ≠ b) :
    s ≠ t := by
  intro he
  subst he
  rw [hs] at ht
  exact hab (Option.some.inj ht)

/-! Shapes of the nine cache keys as character lists. -/

theorem getCacheKey_data (id : Int) :
    (getCacheKey id).data = "user:".data ++ (intRepr id).data := by
  unfold getCacheKey
  rw [strDataAppend]

theorem getPostCacheKey_data (id : Int) :
    (getPostCacheKey id).data = "post:".data ++ (intRepr id).data := by
  unfold getPostCacheKey
  rw [strDataAppend]

theorem postSlugKey_data (slug : String) :
    (postSlugKey slug).data = "post:slug:".data ++ slug.data := by
  unfold postSlugKey
  rw [strDataAppend]

theorem postsAllKey_data (limit offset : Int) :
    (postsAllKey limit offset).data =
      ("posts:all:limit=".data ++ (intRepr limit).data) ++
        ':' :: ("offset=".data ++ (intRepr offset).data) := by
  unfold postsAllKey
  rw [strDataAppend, strDataAppend, strDataAppend]
  have hoff : ":offset=".data = ':' :: "offset=".data := rfl
  rw [hoff]
  simp [List.append_assoc]

theorem postsCategoryKey_data (slug : String) (limit offset : Int) :
    (postsCategoryKey slug limit offset).data =
      (("posts:category:".data ++ slug.data) ++
        ':' :: ("limit=".data ++ (intRepr limit).data)) ++
        ':' :: ("offset=".data ++ (intRepr offset).data) := by
  unfold postsCategoryKey
  rw [strDataAppend, strDataAppend, strDataAppend, strDataAppend]
  have hlim : ":limit=".data = ':' :: "limit=".data := rfl
  have hoff : ":offset=".data = ':' :: "offset=".data := rfl
  rw [hlim, hoff]
  simp [List.append_assoc]

theorem postsTagKey_data (slug : String) (limit offset : Int) :
    (postsTagKey slug limit offset).data =
      (("posts:tag:".data ++ slug.data) ++
        ':' :: ("limit=".data ++ (intRepr limit).data)) ++
        ':' :: ("offset=".data ++ (intRepr offset).data) := by
  unfold postsTagKey
  rw [strDataAppend, strDataAppend, strDataAppend, strDataAppend]
  have hlim : ":limit=".data = ':' :: "limit=".data := rfl
  have hoff : ":offset=".data = ':' :: "offset=".data := rfl
  rw [hlim, hoff]
  simp [List.append_assoc]

theorem postsFeaturedKey_data (limit : Int) :
    (postsFeaturedKey limit).data =
      "posts:featured:limit=".data ++ (intRepr limit).data := by
  unfold postsFeaturedKey
  rw [strDataAppend]

/-! Character lookups inside keys, used to separate the key namespaces. -/

theorem getPrefixL {A B : List Char} {i : Nat} {a : Char} (hi : i < A.length)
    (h : A[i]? = some a) : (A ++ B)[i]? = some a := by
  rw [List.getElem?_append_left hi]
  exact h

theorem getLit2 {A R O : List Char} {i : Nat} {a : Char} (hi : i < A.length)
    (h : A[i]? = some a) : ((A ++ R) ++ ':' :: O)[i]? = some a := by
  have h1 : i < (A ++ R).length := by
    simp only [List.length_append]; omega
  rw [List.getElem?_append_left h1]
  exact getPrefixL hi h

theorem getLit3 {A S L O : List Char} {i : Nat} {a : Char} (hi : i < A.length)
    (h : A[i]? = some a) :
    (((A ++ S) ++ ':' :: L) ++ ':' :: O)[i]? = some a := by
  have h1 : i < ((A ++ S) ++ ':' :: L).length := by
    simp only [List.length_append, List.length_cons]; omega
  rw [List.getElem?_append_left h1]
  exact getLit2 hi h

theorem uiGet0 (id : Int) : (getCacheKey id).data[0]? = some 'u' := by
  rw [getCacheKey_data]; exact getPrefixL (by decide) (by decide)

theorem uiGet4 (id : Int) : (getCacheKey id).data[4]? = some ':' := by
  rw [getCacheKey_data]; exact getPrefixL (by decide) (by decide)

theorem piGet0 (id : Int) : (getPostCacheKey id).data[0]? = some 'p' := by
  rw [getPostCacheKey_data]; exact getPrefixL (by decide) (by decide)

theorem piGet4 (id : Int) : (getPostCacheKey id).data[4]? = some ':' := by
  rw [getPostCacheKey_data]; exact getPrefixL (by decide) (by decide)

theorem psGet0 (s : String) : (postSlugKey s).data[0]? = some 'p' := by
  rw [postSlugKey_data]; exact getPrefixL (by decide) (by decide)

theorem psGet4 (s : String) : (postSlugKey s).data[4]? = some ':' := by
  rw [postSlugKey_data]; exact getPrefixL (by decide) (by decide)

theorem psGet5 (s : String) : (postSlugKey s).data[5]? = some 's' := by
  rw [postSlugKey_data]; exact getPrefixL (by decide) (by decide)

theorem paGet0 (l o : Int) : (postsAllKey l o).data[0]? = some 'p' := by
  rw [postsAllKey_data]; exact getLit2 (by decide) (by decide)

theorem paGet4 (l o : Int) : (postsAllKey l o).data[4]? = some 's' := by
  rw [postsAllKey_data]; exact getLit2 (by decide) (by decide)

theorem paGet6 (l o : Int) : (postsAllKey l o).data[6]? = some 'a' := by
  rw [postsAllKey_data]; exact getLit2 (by decide) (by decide)

theorem pcGet0 (s : String) (l o : Int) :
    (postsCategoryKey s l o).data[0]? = some 'p' := by
  rw [postsCategoryKey_data]; exact getLit3 (by decide) (by decide)

theorem pcGet4 (s : String) (l o : Int) :
    (postsCategoryKey s l o).data[4]? = some 's' := by
  rw [postsCategoryKey_data]; exact getLit3 (by decide) (by decide)

theorem pcGet6 (s : String) (l o : Int) :
    (postsCategoryKey s l o).data[6]? = some 'c' := by
  rw [postsCategoryKey_data]; exact getLit3 (by decide) (by decide)

theorem ptGet0 (s : String) (l o : Int) :
    (postsTagKey s l o).data[0]? = some 'p' := by
  rw [postsTagKey_data]; exact getLit3 (by decide) (by decide)

theorem ptGet4 (s : String) (l o : Int) :
    (postsTagKey s l o).data[4]? = some 's' := by
  rw [postsTagKey_data]; exact getLit3 (by decide) (by decide)

theorem ptGet6 (s : String) (l o : Int) :
    (postsTagKey s l o).data[6]? = some 't' := by
  rw [postsTagKey_data]; exact getLit3 (by decide) (by decide)

theorem ptGet7 (s : String) (l o : Int) :
    (postsTagKey s l o).data[7]? = some 'a' := by
  rw [postsTagKey_data]; exact getLit3 (by decide) (by decide)

theorem pfGet0 (l : Int) : (postsFeaturedKey l).data[0]? = some 'p' := by
  rw [postsFeaturedKey_data]; exact getPrefixL (by decide) (by decide)

theorem pfGet4 (l : Int) : (postsFeaturedKey l).data[4]? = some 's' := by
  rw [postsFeaturedKey_data]; exact getPrefixL (by decide) (by decide)

theorem pfGet6 (l : Int) : (postsFeaturedKey l).data[6]? = some 'f' := by
  rw [postsFeaturedKey_data]; exact getPrefixL (by decide) (by decide)

/-- The sixth character of `post:{id}` is the first character of the decimal
representation: a digit or a minus sign, in particular not the letter s. -/
theorem piGet5 (id : Int) :
    ∃ c, (getPostCacheKey id).data[5]? = some c ∧ 45 ≤ c.toNat ∧
      c.toNat ≤ 57 := by
  rcases hr : (intRepr id).data with _ | ⟨c, cs⟩
  · exact absurd hr (intRepr_data_ne_nil id)
  · refine ⟨c, ?_, ?_⟩
    · rw [getPostCacheKey_data, List.getElem?_append_right (by decide), hr]
      have h5 : (5 : Nat) - "post:".data.length = 0 := by decide
      rw [h5]
      simp
    · exact intRepr_mem id c (by rw [hr]; simp)

theorem getPostCacheKey_ne_postSlugKey (id : Int) (slug : String) :
    getPostCacheKey id ≠ postSlugKey slug := by
  obtain ⟨c, hc, hb1, hb2⟩ := piGet5 id
  refine keyNe hc (psGet5 slug) ?_
  intro he
  subst he
  simp at hb2

/-! Injectivity of each key namespace in its discriminating parameters. -/

theorem offsetTail_no_colon (o : Int) :
    ∀ c ∈ "offset=".data ++ (intRepr o).data, c ≠ ':' := by
  intro c hc he
  subst he
  rcases List.mem_append.mp hc with h | h
  · exact absurd h (by decide)
  · exact intRepr_no_colon o ':' h rfl

theorem limitTail_no_colon (l : Int) :
    ∀ c ∈ "limit=".data ++ (intRepr l).data, c ≠ ':' := by
  intro c hc he
  subst he
  rcases List.mem_append.mp hc with h | h
  · exact absurd h (by decide)
  · exact intRepr_no_colon l ':' h rfl

theorem getCacheKey_inj {a b : Int} (h : getCacheKey a = getCacheKey b) :
    a = b := by
  have hd := congrArg String.data h
  rw [getCacheKey_data, getCacheKey_data] at hd
  exact intRepr_inj (strDataInj (List.append_cancel_left hd))

theorem getPostCacheKey_inj {a b : Int}
    (h : getPostCacheKey a = getPostCacheKey b) : a = b := by
  have hd := congrArg String.data h
  rw [getPostCacheKey_data, getPostCacheKey_data] at hd
  exact intRepr_inj (strDataInj (List.append_cancel_left hd))

theorem postSlugKey_inj {a b : String} (h : postSlugKey a = postSlugKey b) :
    a = b := by
  have hd := congrArg String.data h
  rw [postSlugKey_data, postSlugKey_data] at hd
  exact strDataInj (List.append_cancel_left hd)

theorem postsFeaturedKey_inj {a b : Int}
    (h : postsFeaturedKey a = postsFeaturedKey b) : a = b := by
  have hd := congrArg String.data h
  rw [postsFeaturedKey_data, postsFeaturedKey_data] at hd
  exact intRepr_inj (strDataInj (List.append_cancel_left hd))

theorem postsAllKey_inj {l1 o1 l2 o2 : Int}
    (h : postsAllKey l1 o1 = postsAllKey l2 o2) : l1 = l2 ∧ o1 = o2 := by
  have hd := congrArg String.data h
  rw [postsAllKey_data, postsAllKey_data] at hd
  obtain ⟨hx, hy⟩ := splitLastColon (offsetTail_no_colon o1)
    (offsetTail_no_colon o2) hd
  exact ⟨intRepr_inj (strDataInj (List.append_cancel_left hx)),
    intRepr_inj (strDataInj (List.append_cancel_left hy))⟩

theorem postsCategoryKey_inj {s1 s2 : String} {l1 o1 l2 o2 : Int}
    (h : postsCategoryKey s1 l1 o1 = postsCategoryKey s2 l2 o2) :
    s1 = s2 ∧ l1 = l2 ∧ o1 = o2 := by
  have hd := congrArg String.data h
  rw [postsCategoryKey_data, postsCategoryKey_data] at hd
  obtain ⟨hx, hy⟩ := splitLastColon (offsetTail_no_colon o1)
    (offsetTail_no_colon o2) hd
  obtain ⟨hz, hw⟩ := splitLastColon (limitTail_no_colon l1)
    (limitTail_no_colon l2) hx
  exact ⟨strDataInj (List.append_cancel_left hz),
    intRepr_inj (strDataInj (List.append_cancel_left hw)),
    intRepr_inj (strDataInj (List.append_cancel_left hy))⟩

theorem postsTagKey_inj {s1 s2 : String} {l1 o1 l2 o2 : Int}
    (h : postsTagKey s1 l1 o1 = postsTagKey s2 l2 o2) :
    s1 = s2 ∧ l1 = l2 ∧ o1 = o2 := by
  have hd := congrArg String.data h
  rw [postsTagKey_data, postsTagKey_data] at hd
  obtain ⟨hx, hy⟩ := splitLastColon (offsetTail_no_colon o1)
    (offsetTail_no_colon o2) hd
  obtain ⟨hz, hw⟩ := splitLastColon (limitTail_no_colon l1)
    (limitTail_no_colon l2) hx
  exact ⟨strDataInj (List.append_cancel_left hz),
    intRepr_inj (strDataInj (List.append_cancel_left hw)),
    intRepr_inj (strDataInj (List.append_cancel_left hy))⟩

/-! Association-list facts about the modelled store. -/

theorem lookupEntry_cons (e : String × Payload × Nat) (rest : CacheStore)
    (k : String) :
    lookupEntry (e :: rest) k =
      if e.1 = k then some e.2 else lookupEntry rest k := rfl

theorem lookupEntry_eraseKey_self (st : CacheStore) (k : String) :
    lookupEntry (eraseKey st k) k = none := by
  induction st with
  | nil => rfl
  | cons e rest ih =>
    unfold eraseKey at ih ⊢
    rw [List.filter_cons]
    by_cases he : e.1 = k
    · rw [if_neg (by simp [he])]
      exact ih
    · rw [if_pos (by simp [he]), lookupEntry_cons, if_neg he]
      exact ih

theorem lookupEntry_eraseKey_ne (st : CacheStore) {k k' : String}
    (h : k' ≠ k) : lookupEntry (eraseKey st k) k' = lookupEntry st k' := by
  induction st with
  | nil => rfl
  | cons e rest ih =>
    unfold eraseKey at ih ⊢
    rw [List.filter_cons]
    by_cases he : e.1 = k
    · rw [if_neg (by simp [he]), ih, lookupEntry_cons,
        if_neg (by rw [he]; exact fun x => h x.symm)]
    · rw [if_pos (by simp [he]), lookupEntry_cons, lookupEntry_cons]
      by_cases he2 : e.1 = k'
      · rw [if_pos he2, if_pos he2]
      · rw [if_neg he2, if_neg he2]
        exact ih

theorem lookupEntry_eraseKeys_notMem (st : CacheStore) {k : String}
    {ks : List String} (h : k ∉ ks) :
    lookupEntry (eraseKeys st ks) k = lookupEntry st k := by
  induction st with
  | nil => rfl
  | cons e rest ih =>
    unfold eraseKeys at ih ⊢
    rw [List.filter_cons]
    by_cases he : e.1 ∈ ks
    · rw [if_neg (by simp [he]), ih, lookupEntry_cons,
        if_neg (fun hx => h (by rw [← hx]; exact he))]
    · rw [if_pos (by simp [he]), lookupEntry_cons, lookupEntry_cons]
      by_cases he2 : e.1 = k
      · rw [if_pos he2, if_pos he2]
      · rw [if_neg he2, if_neg he2]
        exact ih

theorem lookupEntry_mem {st : CacheStore} {k : String} {pe : Payload × Nat}
    (h : lookupEntry st k = some pe) : (k, pe) ∈ st := by
  induction st with
  | nil => exact absurd h (by simp [lookupEntry])
  | cons e rest ih =>
    rw [lookupEntry_cons] at h
    by_cases he : e.1 = k
    · rw [if_pos he] at h
      obtain ⟨e1, e2⟩ := e
      simp only at he
      have h2 := Option.some.inj h
      subst he
      subst h2
      exact List.mem_cons_self _ _
    · rw [if_neg he] at h
      exact List.mem_cons_of_mem e (ih h)

theorem mem_eraseKeys {st : CacheStore} {ks : List String}
    {x : String × Payload × Nat} :
    x ∈ eraseKeys st ks ↔ x ∈ st ∧ x.1 ∉ ks := by
  unfold eraseKeys
  simp [List.mem_filter]

theorem mem_redisKeysPostsStar {st : CacheStore} {now : Nat} {k : String} :
    k ∈ redisKeysPostsStar st now false ↔
      ∃ pe : Payload × Nat, (k, pe) ∈ st ∧ matchesPostsStar k = true ∧
        now < pe.2 := by
  unfold redisKeysPostsStar
  rw [if_neg (by simp)]
  constructor
  · intro h
    obtain ⟨e, he, hk⟩ := List.mem_map.mp h
    obtain ⟨hmem, hpred⟩ := List.mem_filter.mp he
    simp only [Bool.and_eq_true, decide_eq_true_eq] at hpred
    subst hk
    exact ⟨e.2, hmem, hpred.1, hpred.2⟩
  · intro ⟨pe, hmem, hmatch, hlive⟩
    exact List.mem_map.mpr ⟨(k, pe), List.mem_filter.mpr
      ⟨hmem, by simp [hmatch, hlive]⟩, rfl⟩

theorem redisKeysPostsStar_matches {st : CacheStore} {now : Nat}
    {fault : Bool} {k : String} (h : k ∈ redisKeysPostsStar st now fault) :
    matchesPostsStar k = true := by
  unfold redisKeysPostsStar at h
  rcases fault with _ | _
  · rw [if_neg (by simp)] at h
    obtain ⟨e, he, hk⟩ := List.mem_map.mp h
    obtain ⟨-, hpred⟩ := List.mem_filter.mp he
    simp only [Bool.and_eq_true, decide_eq_true_eq] at hpred
    subst hk
    exact hpred.1
  · simp [if_pos] at h

theorem lookupEntry_filter_none {st : CacheStore} {k : String}
    (p : String × Payload × Nat → Bool) (h : lookupEntry st k = none) :
    lookupEntry (st.filter p) k = none := by
  induction st with
  | nil => rfl
  | cons e rest ih =>
    unfold lookupEntry at h
    by_cases he : e.1 = k
    · rw [if_pos he] at h
      exact absurd h (by simp)
    · rw [if_neg he] at h
      rw [List.filter_cons]
      split
      · unfold lookupEntry
        rw [if_neg he]
        exact ih h
      · exact ih h

/-! Behaviour of the shared read-through template. -/

theorem redisGet_none_of_cold {st : CacheStore} {now : Nat} {fGet : Bool}
    {k : String} (h : lookupEntry st k = none) :
    redisGet st now fGet k = none := by
  unfold redisGet
  split
  · rfl
  · rw [h]

theorem readThrough_cold_result (α : Type) (key : String)
    (encode : α → Payload) (decode : Payload → Option α)
    (ds : Except String α) (st : CacheStore) (now : Nat) (fGet fSet : Bool)
    (h : lookupEntry st key = none) :
    (readThrough α key encode decode ds st now fGet fSet).result = ds ∧
    (readThrough α key encode decode ds st now fGet fSet).dsCalled = true := by
  unfold readThrough
  rw [redisGet_none_of_cold h]
  unfold readMiss
  cases ds <;> simp

theorem readThrough_cold_store (α : Type) (key : String)
    (encode : α → Payload) (decode : Payload → Option α) (v : α)
    (st : CacheStore) (now : Nat) (fGet : Bool)
    (h : lookupEntry st key = none) :
    (readThrough α key encode decode (Except.ok v) st now fGet false).store =
      (key, encode v, now + ttl) :: eraseKey st key := by
  unfold readThrough
  rw [redisGet_none_of_cold h]
  unfold readMiss redisSet
  simp

theorem redisGet_no_fault (st : CacheStore) (now : Nat) (k : String)
    (p : Payload) (ex : Nat) (h : lookupEntry st k = some (p, ex))
    (hlive : now < ex) : redisGet st now false k = some p := by
  unfold redisGet
  simp [h, hlive]

theorem readThrough_hot (α : Type) (key : String) (encode : α → Payload)
    (decode : Payload → Option α) (ds : Except String α) (pl : Payload)
    (v : α) (st : CacheStore) (now ex : Nat) (fSet : Bool)
    (hget : lookupEntry st key = some (pl, ex)) (hlive : now < ex)
    (hdec : decode pl = some v) :
    readThrough α key encode decode ds st now false fSet =
      ⟨Except.ok v, st, false, 1⟩ := by
  unfold readThrough
  rw [redisGet_no_fault st now key pl ex hget hlive]
  simp [hdec]

theorem readThrough_second (α : Type) (key : String) (encode : α → Payload)
    (decode : Payload → Option α) (hrt : ∀ v, decode (encode v) = some v)
    (ds : Except String α) (st : CacheStore) (now t1 : Nat) (fGet fSet2 : Bool)
    (v : α) (hcold : lookupEntry st key = none) (hok : ds = Except.ok v)
    (ht : t1 < now + ttl) :
    readThrough α key encode decode ds
        (readThrough α key encode decode ds st now fGet false).store t1 false
        fSet2 =
      ⟨Except.ok v, (readThrough α key encode decode ds st now fGet
        false).store, false, 1⟩ := by
  subst hok
  have hst := readThrough_cold_store α key encode decode v st now fGet hcold
  rw [hst]
  exact readThrough_hot α key encode decode (Except.ok v) (encode v) v _ t1
    (now + ttl) fSet2 (by rw [lookupEntry_cons, if_pos rfl]) ht (hrt v)

theorem readThrough_error_iff (α : Type) (key : String)
    (encode : α → Payload) (decode : Payload → Option α)
    (ds : Except String α) (st : CacheStore) (now : Nat) (fGet fSet : Bool)
    (e : String) :
    (readThrough α key encode decode ds st now fGet fSet).result =
        Except.error e ↔
      ((readThrough α key encode decode ds st now fGet fSet).dsCalled = true ∧
        ds = Except.error e) := by
  unfold readThrough
  cases hget : redisGet st now fGet key with
  | none =>
    unfold readMiss
    cases ds <;> simp
  | some pl =>
    cases hdec : decode pl with
    | none =>
      unfold readMiss
      cases ds <;> simp [hdec]
    | some v => simp [hdec]

theorem readThrough_error_store (α : Type) (key : String)
    (encode : α → Payload) (decode : Payload → Option α) (e : String)
    (st : CacheStore) (now : Nat) (fGet fSet : Bool) :
    (readThrough α key encode decode (Except.error e) st now fGet
      fSet).store = st := by
  unfold readThrough
  cases hget : redisGet st now fGet key with
  | none => rfl
  | some pl =>
    cases hdec : decode pl with
    | none => simp [hdec, readMiss]
    | some v => simp [hdec]

theorem readThrough_set_fault_result (α : Type) (key : String)
    (encode : α → Payload) (decode : Payload → Option α)
    (ds : Except String α) (st : CacheStore) (now : Nat) (fGet b b' : Bool) :
    (readThrough α key encode decode ds st now fGet b).result =
      (readThrough α key encode decode ds st now fGet b').result := by
  unfold readThrough
  cases hget : redisGet st now fGet key with
  | none =>
    unfold readMiss
    cases ds <;> rfl
  | some pl =>
    cases hdec : decode pl with
    | none =>
      unfold readMiss
      cases ds <;> simp [hdec]
    | some v => simp [hdec]

/-! Effect of `IncrementViewCount` on the store. -/

theorem redisGet_no_fault_eq (st : CacheStore) (now : Nat) (k : String) :
    redisGet st now false k =
      (match lookupEntry st k with
       | some (p, ex) => if now < ex then some p else none
       | none => none) := by
  unfold redisGet
  simp

theorem incr_frame (ds : Int → Except String Unit) (id : Int)
    (st : CacheStore) (now : Nat) (f1 f2 f3 : Bool) {k : String}
    (h1 : k ≠ getPostCacheKey id) (h2 : matchesPostsStar k = false) :
    lookupEntry
        (CachedPostRepository.IncrementViewCount ds id st now f1 f2 f3).2 k =
      lookupEntry st k := by
  unfold CachedPostRepository.IncrementViewCount
  cases hds : ds id with
  | error e => rfl
  | ok u =>
    dsimp only
    have hst1 : lookupEntry (redisDel st f1 (getPostCacheKey id)) k =
        lookupEntry st k := by
      unfold redisDel
      split
      · rfl
      · exact lookupEntry_eraseKey_ne st h1
    have hnot : k ∉ redisKeysPostsStar (redisDel st f1 (getPostCacheKey id))
        now f2 := by
      intro hk
      rw [redisKeysPostsStar_matches hk] at h2
      exact Bool.noConfusion h2
    split
    · unfold redisDelMany
      split
      · exact hst1
      · rw [lookupEntry_eraseKeys_notMem _ hnot]
        exact hst1
    · exact hst1

theorem incr_own_key_gone (ds : Int → Except String Unit) (id : Int)
    (st : CacheStore) (now : Nat) (f2 f3 : Bool)
    (hok : ds id = Except.ok ()) :
    lookupEntry
        (CachedPostRepository.IncrementViewCount ds id st now false f2
          f3).2 (getPostCacheKey id) = none := by
  unfold CachedPostRepository.IncrementViewCount
  rw [hok]
  dsimp only
  have hst1 : lookupEntry (redisDel st false (getPostCacheKey id))
      (getPostCacheKey id) = none := by
    unfold redisDel
    rw [if_neg (by simp)]
    exact lookupEntry_eraseKey_self st _
  split
  · unfold redisDelMany
    split
    · exact hst1
    · unfold eraseKeys
      exact lookupEntry_filter_none _ hst1
  · exact hst1

theorem incr_matching_gone (ds : Int → Except String Unit) (id : Int)
    (st : CacheStore) (now : Nat) {k : String}
    (hok : ds id = Except.ok ()) (hm : matchesPostsStar k = true) :
    redisGet
        (CachedPostRepository.IncrementViewCount ds id st now false false
          false).2 now false k = none := by
  unfold CachedPostRepository.IncrementViewCount
  rw [hok]
  dsimp only
  have hdel : redisDel st false (getPostCacheKey id) =
      eraseKey st (getPostCacheKey id) := by
    unfold redisDel
    rw [if_neg (by simp)]
  rw [hdel]
  split
  · rename_i hlen
    unfold redisDelMany
    rw [if_neg (by simp)]
    rw [redisGet_no_fault_eq]
    cases hl : lookupEntry
        (eraseKeys (eraseKey st (getPostCacheKey id))
          (redisKeysPostsStar (eraseKey st (getPostCacheKey id)) now false))
        k with
    | none => rfl
    | some pe =>
      obtain ⟨p, ex⟩ := pe
      have hmem2 := mem_eraseKeys.mp (lookupEntry_mem hl)
      by_cases hlive : now < ex
      · exact absurd (mem_redisKeysPostsStar.mpr ⟨(p, ex), hmem2.1, hm, hlive⟩)
          hmem2.2
      · simp [hlive]
  · rename_i hlen
    rw [redisGet_no_fault_eq]
    cases hl : lookupEntry (eraseKey st (getPostCacheKey id)) k with
    | none => rfl
    | some pe =>
      obtain ⟨p, ex⟩ := pe
      by_cases hlive : now < ex
      · exfalso
        apply hlen
        have hk : k ∈ redisKeysPostsStar (eraseKey st (getPostCacheKey id))
            now false :=
          mem_redisKeysPostsStar.mpr ⟨(p, ex), lookupEntry_mem hl, hm, hlive⟩
        exact List.length_pos.mpr (List.ne_nil_of_mem hk)
      · simp [hlive]

/-! Concrete fixtures used by witnesses and counterexamples. -/

/-- A concrete user record. -/
def userA : User := ⟨1, "A", "a@example.com", none, 0, 0⟩

/-- A concrete user record agreeing with `userA` except for the name. -/
def userB : User := ⟨1, "B", "a@example.com", none, 0, 0⟩

/-- A concrete post record with slug hello. -/
def postP : PostWithDetails :=
  ⟨⟨1, 1, none, "T", "hello", "C", none, "published", none, 0, 0, 0, false,
    0, 0⟩, "alice", none, none, none, none, [], []⟩

/-- A pre-populated store holding the user entry and the list entry. -/
def c2Store : CacheStore :=
  [(getCacheKey 1, Payload.userVal userA, 100),
   (usersAllKey, Payload.userListVal [userA], 100)]

theorem redisDel_no_fault (st : CacheStore) (k : String) :
    redisDel st false k = eraseKey st k := by
  unfold redisDel
  rw [if_neg (by simp)]

theorem matchesPostsStar_postSlugKey (slug : String) :
    matchesPostsStar (postSlugKey slug) = false := by
  unfold matchesPostsStar postSlugKey
  cases slug with
  | mk l => simp [List.isPrefixOf]

/-! Claim C6. -/

/-- C6: if the wrapped Data Source write fails, each decorator write method
returns that error unchanged and deletes no cache keys, so the store is
exactly what it was before the call. -/
theorem C6_write_failure_no_invalidation :
    (∀ (ds : User → Except String User) u st fDel e, ds u = Except.error e →
      CachedUserRepository.Create ds u st fDel = (Except.error e, st)) ∧
    (∀ (ds : User → Except String Unit) u st f1 f2 e,
      ds u = Except.error e →
      CachedUserRepository.Update ds u st f1 f2 = (Except.error e, st)) ∧
    (∀ (ds : Int → Except String Unit) id st f1 f2 e,
      ds id = Except.error e →
      CachedUserRepository.Delete ds id st f1 f2 = (Except.error e, st)) ∧
    (∀ (ds : Int → Except String Unit) id st now f1 f2 f3 e,
      ds id = Except.error e →
      CachedPostRepository.IncrementViewCount ds id st now f1 f2 f3 =
        (Except.error e, st)) := by
  refine ⟨?_, ?_, ?_, ?_⟩
  · intro ds u st fDel e h
    unfold CachedUserRepository.Create
    rw [h]
  · intro ds u st f1 f2 e h
    unfold CachedUserRepository.Update
    rw [h]
  · intro ds id st f1 f2 e h
    unfold CachedUserRepository.Delete
    rw [h]
  · intro ds id st now f1 f2 f3 e h
    unfold CachedPostRepository.IncrementViewCount
    rw [h]

/-- C6 witness: a concrete pre-populated entry survives each failing write. -/
theorem C6_write_failure_no_invalidation_witness :
    CachedUserRepository.Create (fun _ => Except.error ("db down")) userA
        c2Store false = (Except.error ("db down"), c2Store) ∧
    CachedUserRepository.Update (fun _ => Except.error ("db down")) userA
        c2Store false false = (Except.error ("db down"), c2Store) ∧
    CachedUserRepository.Delete (fun _ => Except.error ("db down")) 1
        c2Store false false = (Except.error ("db down"), c2Store) ∧
    CachedPostRepository.IncrementViewCount
        (fun _ => Except.error ("db down")) 1 c2Store 0 false false false =
      (Except.error ("db down"), c2Store) := by
  obtain ⟨h1, h2, h3, h4⟩ := C6_write_failure_no_invalidation
  exact ⟨h1 _ userA c2Store false _ rfl, h2 _ userA c2Store false false _ rfl,
    h3 _ 1 c2Store false false _ rfl, h4 _ 1 c2Store 0 false false false _ rfl⟩

/-! Claim C2. -/

/-- C2 counterexample: `Create` succeeds yet the entry under the user's own
key survives, so Create does not delete `user:{id}` as claimed; only
`users:all` is removed. -/
theorem C2_counterexample :
    (CachedUserRepository.Create (fun u => Except.ok u) userA c2Store
        false).1 = Except.ok userA ∧
    lookupEntry (CachedUserRepository.Create (fun u => Except.ok u) userA
        c2Store false).2 (getCacheKey userA.id) =
      some (Payload.userVal userA, 100) ∧
    lookupEntry (CachedUserRepository.Create (fun u => Except.ok u) userA
        c2Store false).2 usersAllKey = none := by
  refine ⟨rfl, ?_, ?_⟩ <;> rfl

/-- C2 amended: after a successful Data Source write, Create deletes only
`users:all`; Update and Delete delete `user:{id}` and `users:all`;
IncrementViewCount deletes `post:{id}` and every live key matching
`posts:*`, leaving every other key untouched. -/
theorem C2_invalidation_sets :
    (∀ (ds : User → Except String User) u st v, ds u = Except.ok v →
      (CachedUserRepository.Create ds u st false).2 =
        eraseKey st usersAllKey) ∧
    (∀ (ds : User → Except String Unit) u st, ds u = Except.ok () →
      (CachedUserRepository.Update ds u st false false).2 =
        eraseKey (eraseKey st (getCacheKey u.id)) usersAllKey) ∧
    (∀ (ds : Int → Except String Unit) id st, ds id = Except.ok () →
      (CachedUserRepository.Delete ds id st false false).2 =
        eraseKey (eraseKey st (getCacheKey id)) usersAllKey) ∧
    (∀ (ds : Int → Except String Unit) id st now, ds id = Except.ok () →
      lookupEntry (CachedPostRepository.IncrementViewCount ds id st now false
          false false).2 (getPostCacheKey id) = none ∧
      (∀ k, matchesPostsStar k = true →
        redisGet (CachedPostRepository.IncrementViewCount ds id st now false
          false false).2 now false k = none) ∧
      (∀ k, k ≠ getPostCacheKey id → matchesPostsStar k = false →
        lookupEntry (CachedPostRepository.IncrementViewCount ds id st now
          false false false).2 k = lookupEntry st k)) := by
  refine ⟨?_, ?_, ?_, ?_⟩
  · intro ds u st v h
    unfold CachedUserRepository.Create
    rw [h, redisDel_no_fault]
  · intro ds u st h
    unfold CachedUserRepository.Update
    rw [h, redisDel_no_fault, redisDel_no_fault]
  · intro ds id st h
    unfold CachedUserRepository.Delete
    rw [h, redisDel_no_fault, redisDel_no_fault]
  · intro ds id st now h
    exact ⟨incr_own_key_gone ds id st now false false h,
      fun k hk => incr_matching_gone ds id st now h hk,
      fun k h1 h2 => incr_frame ds id st now false false false h1 h2⟩

/-- C2 witness: the amended invalidation sets at concrete inputs. -/
theorem C2_invalidation_sets_witness :
    (CachedUserRepository.Create (fun u => Except.ok u) userA c2Store
        false).2 = eraseKey c2Store usersAllKey ∧
    (CachedUserRepository.Update (fun _ => Except.ok ()) userA c2Store false
        false).2 = eraseKey (eraseKey c2Store (getCacheKey userA.id))
        usersAllKey ∧
    lookupEntry (CachedPostRepository.IncrementViewCount
        (fun _ => Except.ok ()) 1 c2Store 0 false false false).2
        (getPostCacheKey 1) = none := by
  obtain ⟨h1, h2, -, h4⟩ := C2_invalidation_sets
  exact ⟨h1 _ userA c2Store userA rfl, h2 _ userA c2Store rfl,
    (h4 _ 1 c2Store 0 rfl).1⟩

/-! Claim C9. -/

/-- C9: IncrementViewCount deletes only `post:{id}` and keys matching
`posts:*`; every entry under a `post:slug:{slug}` key survives unchanged,
including the slug-keyed entry just written by FindBySlugWithDetails for
the incremented post itself, which keeps serving the pre-increment record. -/
theorem C9_increment_preserves_slug_keys :
    (∀ ds id st now f1 f2 f3 slug,
      lookupEntry (CachedPostRepository.IncrementViewCount ds id st now f1 f2
        f3).2 (postSlugKey slug) = lookupEntry st (postSlugKey slug)) ∧
    (∀ ds id st now f1 f2 f3 k, k ≠ getPostCacheKey id →
      matchesPostsStar k = false →
      lookupEntry (CachedPostRepository.IncrementViewCount ds id st now f1 f2
        f3).2 k = lookupEntry st k) ∧
    (∀ (dsFind : String → Except String PostWithDetails)
       (dsIncr : Int → Except String Unit) (p : PostWithDetails)
       (slug : String) st now f1 f2 f3,
      lookupEntry st (postSlugKey slug) = none →
      dsFind slug = Except.ok p →
      lookupEntry (CachedPostRepository.IncrementViewCount dsIncr p.post.id
          (CachedPostRepository.FindBySlugWithDetails dsFind slug st now
            false false).store now f1 f2 f3).2 (postSlugKey slug) =
        some (Payload.postVal p, now + ttl)) := by
  have hframe : ∀ ds id st now f1 f2 f3 slug,
      lookupEntry (CachedPostRepository.IncrementViewCount ds id st now f1 f2
        f3).2 (postSlugKey slug) = lookupEntry st (postSlugKey slug) :=
    fun ds id st now f1 f2 f3 slug =>
      incr_frame ds id st now f1 f2 f3
        (Ne.symm (getPostCacheKey_ne_postSlugKey id slug))
        (matchesPostsStar_postSlugKey slug)
  refine ⟨hframe, fun ds id st now f1 f2 f3 k h1 h2 =>
    incr_frame ds id st now f1 f2 f3 h1 h2, ?_⟩
  intro dsFind dsIncr p slug st now f1 f2 f3 hcold hok
  rw [hframe]
  have hst : (CachedPostRepository.FindBySlugWithDetails dsFind slug st now
      false false).store =
      (postSlugKey slug, Payload.postVal p, now + ttl) ::
        eraseKey st (postSlugKey slug) := by
    have := readThrough_cold_store PostWithDetails (postSlugKey slug)
      Payload.postVal decodePost p st now false hcold
    unfold CachedPostRepository.FindBySlugWithDetails
    rw [hok]
    exact this
  rw [hst, lookupEntry_cons, if_pos rfl]

/-- C9 witness: at concrete inputs, the slug entry written by the
slug read survives the increment of the same post. -/
theorem C9_increment_preserves_slug_keys_witness :
    lookupEntry (CachedPostRepository.IncrementViewCount
        (fun _ => Except.ok ()) postP.post.id
        (CachedPostRepository.FindBySlugWithDetails
          (fun _ => Except.ok postP) ("hello") [] 0 false false).store 0
        false false false).2 (postSlugKey ("hello")) =
      some (Payload.postVal postP, 0 + ttl) := by
  exact C9_increment_preserves_slug_keys.2.2 (fun _ => Except.ok postP)
    (fun _ => Except.ok ()) postP ("hello") [] 0 false false false rfl rfl

/-! Claim C1. -/

/-- Packaged read-through behaviour of the shared template: against a cold
key the result is exactly the data source result (the data source is
invoked), and a second read of the same key within the TTL window returns
the same value without invoking the data source. -/
theorem readThrough_claim (α : Type) (key : String) (encode : α → Payload)
    (decode : Payload → Option α) (hrt : ∀ v, decode (encode v) = some v)
    (ds : Except String α) (st : CacheStore) (now : Nat) (fGet fSet : Bool)
    (hcold : lookupEntry st key = none) :
    ((readThrough α key encode decode ds st now fGet fSet).result = ds ∧
      (readThrough α key encode decode ds st now fGet fSet).dsCalled =
        true) ∧
    ∀ v t1 fSet2, ds = Except.ok v → t1 < now + ttl →
      (readThrough α key encode decode ds
        (readThrough α key encode decode ds st now fGet false).store t1 false
        fSet2).result = Except.ok v ∧
      (readThrough α key encode decode ds
        (readThrough α key encode decode ds st now fGet false).store t1 false
        fSet2).dsCalled = false := by
  refine ⟨readThrough_cold_result α key encode decode ds st now fGet fSet
    hcold, ?_⟩
  intro v t1 fSet2 hok ht
  have h := readThrough_second α key encode decode hrt ds st now t1 fGet
    fSet2 v hcold hok ht
  rw [h]
  exact ⟨rfl, rfl⟩

/-- C1: for each of the nine read operations, a read against a cold cache
returns exactly the wrapped Data Source result (invoking it), and a second
read with the same parameters within the TTL window returns an equal
deserialized result without invoking the Data Source. -/
theorem C1_read_through_equivalence :
    (∀ ds st now fGet fSet, lookupEntry st usersAllKey = none →
      (((CachedUserRepository.FindAll ds st now fGet fSet).result = ds ∧
        (CachedUserRepository.FindAll ds st now fGet fSet).dsCalled =
          true) ∧
       ∀ l t1 fSet2, ds = Except.ok l → t1 < now + ttl →
         (CachedUserRepository.FindAll ds (CachedUserRepository.FindAll ds
           st now fGet false).store t1 false fSet2).result = Except.ok l ∧
         (CachedUserRepository.FindAll ds (CachedUserRepository.FindAll ds
           st now fGet false).store t1 false fSet2).dsCalled = false)) ∧
    (∀ ds id st now fGet fSet, lookupEntry st (getCacheKey id) = none →
      (((CachedUserRepository.FindByID ds id st now fGet fSet).result =
          ds id ∧
        (CachedUserRepository.FindByID ds id st now fGet fSet).dsCalled =
          true) ∧
       ∀ u t1 fSet2, ds id = Except.ok u → t1 < now + ttl →
         (CachedUserRepository.FindByID ds id (CachedUserRepository.FindByID
           ds id st now fGet false).store t1 false fSet2).result =
           Except.ok u ∧
         (CachedUserRepository.FindByID ds id (CachedUserRepository.FindByID
           ds id st now fGet false).store t1 false fSet2).dsCalled =
           false)) ∧
    (∀ ds limit offset st now fGet fSet,
      lookupEntry st (postsAllKey limit offset) = none →
      (((CachedPostRepository.FindAllWithDetails ds limit offset st now fGet
          fSet).result = ds limit offset ∧
        (CachedPostRepository.FindAllWithDetails ds limit offset st now fGet
          fSet).dsCalled = true) ∧
       ∀ l t1 fSet2, ds limit offset = Except.ok l → t1 < now + ttl →
         (CachedPostRepository.FindAllWithDetails ds limit offset
           (CachedPostRepository.FindAllWithDetails ds limit offset st now
             fGet false).store t1 false fSet2).result = Except.ok l ∧
         (CachedPostRepository.FindAllWithDetails ds limit offset
           (CachedPostRepository.FindAllWithDetails ds limit offset st now
             fGet false).store t1 false fSet2).dsCalled = false)) ∧
    (∀ ds id st now fGet fSet, lookupEntry st (getPostCacheKey id) = none →
      (((CachedPostRepository.FindByIDWithDetails ds id st now fGet
          fSet).result = ds id ∧
        (CachedPostRepository.FindByIDWithDetails ds id st now fGet
          fSet).dsCalled = true) ∧
       ∀ p t1 fSet2, ds id = Except.ok p → t1 < now + ttl →
         (CachedPostRepository.FindByIDWithDetails ds id
           (CachedPostRepository.FindByIDWithDetails ds id st now fGet
             false).store t1 false fSet2).result = Except.ok p ∧
         (CachedPostRepository.FindByIDWithDetails ds id
           (CachedPostRepository.FindByIDWithDetails ds id st now fGet
             false).store t1 false fSet2).dsCalled = false)) ∧
    (∀ ds slug st now fGet fSet, lookupEntry st (postSlugKey slug) = none →
      (((CachedPostRepository.FindBySlugWithDetails ds slug st now fGet
          fSet).result = ds slug ∧
        (CachedPostRepository.FindBySlugWithDetails ds slug st now fGet
          fSet).dsCalled = true) ∧
       ∀ p t1 fSet2, ds slug = Except.ok p → t1 < now + ttl →
         (CachedPostRepository.FindBySlugWithDetails ds slug
           (CachedPostRepository.FindBySlugWithDetails ds slug st now fGet
             false).store t1 false fSet2).result = Except.ok p ∧
         (CachedPostRepository.FindBySlugWithDetails ds slug
           (CachedPostRepository.FindBySlugWithDetails ds slug st now fGet
             false).store t1 false fSet2).dsCalled = false)) ∧
    (∀ ds slug limit offset st now fGet fSet,
      lookupEntry st (postsCategoryKey slug limit offset) = none →
      (((CachedPostRepository.FindByCategoryWithDetails ds slug limit offset
          st now fGet fSet).result = ds slug limit offset ∧
        (CachedPostRepository.FindByCategoryWithDetails ds slug limit offset
          st now fGet fSet).dsCalled = true) ∧
       ∀ l t1 fSet2, ds slug limit offset = Except.ok l → t1 < now + ttl →
         (CachedPostRepository.FindByCategoryWithDetails ds slug limit offset
           (CachedPostRepository.FindByCategoryWithDetails ds slug limit
             offset st now fGet false).store t1 false fSet2).result =
           Except.ok l ∧
         (CachedPostRepository.FindByCategoryWithDetails ds slug limit offset
           (CachedPostRepository.FindByCategoryWithDetails ds slug limit
             offset st now fGet false).store t1 false fSet2).dsCalled =
           false)) ∧
    (∀ ds slug limit offset st now fGet fSet,
      lookupEntry st (postsTagKey slug limit offset) = none →
      (((CachedPostRepository.FindByTagWithDetails ds slug limit offset st
          now fGet fSet).result = ds slug limit offset ∧
        (CachedPostRepository.FindByTagWithDetails ds slug limit offset st
          now fGet fSet).dsCalled = true) ∧
       ∀ l t1 fSet2, ds slug limit offset = Except.ok l → t1 < now + ttl →
         (CachedPostRepository.FindByTagWithDetails ds slug limit offset
           (CachedPostRepository.FindByTagWithDetails ds slug limit offset
             st now fGet false).store t1 false fSet2).result =
           Except.ok l ∧
         (CachedPostRepository.FindByTagWithDetails ds slug limit offset
           (CachedPostRepository.FindByTagWithDetails ds slug limit offset
             st now fGet false).store t1 false fSet2).dsCalled = false)) ∧
    (∀ ds limit st now fGet fSet,
      lookupEntry st (postsFeaturedKey limit) = none →
      (((CachedPostRepository.FindFeaturedWithDetails ds limit st now fGet
          fSet).result = ds limit ∧
        (CachedPostRepository.FindFeaturedWithDetails ds limit st now fGet
          fSet).dsCalled = true) ∧
       ∀ l t1 fSet2, ds limit = Except.ok l → t1 < now + ttl →
         (CachedPostRepository.FindFeaturedWithDetails ds limit
           (CachedPostRepository.FindFeaturedWithDetails ds limit st now
             fGet false).store t1 false fSet2).result = Except.ok l ∧
         (CachedPostRepository.FindFeaturedWithDetails ds limit
           (CachedPostRepository.FindFeaturedWithDetails ds limit st now
             fGet false).store t1 false fSet2).dsCalled = false)) ∧
    (∀ ds st now fGet fSet, lookupEntry st postsTotalCountKey = none →
      (((CachedPostRepository.GetTotalCount ds st now fGet fSet).result =
          ds ∧
        (CachedPostRepository.GetTotalCount ds st now fGet fSet).dsCalled =
          true) ∧
       ∀ n t1 fSet2, ds = Except.ok n → t1 < now + ttl →
         (CachedPostRepository.GetTotalCount ds
           (CachedPostRepository.GetTotalCount ds st now fGet
             false).store t1 false fSet2).result = Except.ok n ∧
         (CachedPostRepository.GetTotalCount ds
           (CachedPostRepository.GetTotalCount ds st now fGet
             false).store t1 false fSet2).dsCalled = false)) := by
  refine ⟨?_, ?_, ?_, ?_, ?_, ?_, ?_, ?_, ?_⟩
  · exact fun ds st now fGet fSet hcold =>
      readThrough_claim (List User) usersAllKey Payload.userListVal
        decodeUserList (fun v => rfl) ds st now fGet fSet hcold
  · exact fun ds id st now fGet fSet hcold =>
      readThrough_claim User (getCacheKey id) Payload.userVal decodeUser
        (fun v => rfl) (ds id) st now fGet fSet hcold
  · exact fun ds limit offset st now fGet fSet hcold =>
      readThrough_claim (List PostWithDetails) (postsAllKey limit offset)
        Payload.postListVal decodePostList (fun v => rfl) (ds limit offset)
        st now fGet fSet hcold
  · exact fun ds id st now fGet fSet hcold =>
      readThrough_claim PostWithDetails (getPostCacheKey id) Payload.postVal
        decodePost (fun v => rfl) (ds id) st now fGet fSet hcold
  · exact fun ds slug st now fGet fSet hcold =>
      readThrough_claim PostWithDetails (postSlugKey slug) Payload.postVal
        decodePost (fun v => rfl) (ds slug) st now fGet fSet hcold
  · exact fun ds slug limit offset st now fGet fSet hcold =>
      readThrough_claim (List PostWithDetails)
        (postsCategoryKey slug limit offset) Payload.postListVal
        decodePostList (fun v => rfl) (ds slug limit offset) st now fGet
        fSet hcold
  · exact fun ds slug limit offset st now fGet fSet hcold =>
      readThrough_claim (List PostWithDetails)
        (postsTagKey slug limit offset) Payload.postListVal decodePostList
        (fun v => rfl) (ds slug limit offset) st now fGet fSet hcold
  · exact fun ds limit st now fGet fSet hcold =>
      readThrough_claim (List PostWithDetails) (postsFeaturedKey limit)
        Payload.postListVal decodePostList (fun v => rfl) (ds limit) st now
        fGet fSet hcold
  · exact fun ds st now fGet fSet hcold =>
      readThrough_claim Int postsTotalCountKey Payload.intVal decodeInt
        (fun v => rfl) ds st now fGet fSet hcold

/-- C1 witness: a concrete cold read returns the data source record and the
second read within the TTL window returns it from cache only. -/
theorem C1_read_through_equivalence_witness :
    (CachedUserRepository.FindByID (fun _ => Except.ok userA) 7 [] 0 false
      false).result = Except.ok userA ∧
    (CachedUserRepository.FindByID (fun _ => Except.ok userA) 7
      (CachedUserRepository.FindByID (fun _ => Except.ok userA) 7 [] 0 false
        false).store 1 false false).result = Except.ok userA ∧
    (CachedUserRepository.FindByID (fun _ => Except.ok userA) 7
      (CachedUserRepository.FindByID (fun _ => Except.ok userA) 7 [] 0 false
        false).store 1 false false).dsCalled = false := by
  have h := C1_read_through_equivalence.2.1 (fun _ => Except.ok userA) 7 []
    0 false false rfl
  exact ⟨h.1.1, (h.2 userA 1 false rfl (by decide)).1,
    (h.2 userA 1 false rfl (by decide)).2⟩

/-! Claim C4. -/

/-- Packaged failure semantics of the shared template: the read errors
exactly when the performed data source call errors, a data source error is
returned unchanged and leaves the store untouched, and the set-fault flag
never changes the returned result. -/
theorem readThrough_errors (α : Type) (key : String) (encode : α → Payload)
    (decode : Payload → Option α) (ds : Except String α) (st : CacheStore)
    (now : Nat) (fGet fSet : Bool) :
    (∀ e, (readThrough α key encode decode ds st now fGet fSet).result =
        Except.error e ↔
      ((readThrough α key encode decode ds st now fGet fSet).dsCalled =
        true ∧ ds = Except.error e)) ∧
    (∀ e, ds = Except.error e →
      (readThrough α key encode decode ds st now fGet fSet).store = st) ∧
    (∀ b, (readThrough α key encode decode ds st now fGet fSet).result =
      (readThrough α key encode decode ds st now fGet b).result) := by
  refine ⟨fun e => readThrough_error_iff α key encode decode ds st now fGet
    fSet e, fun e h => ?_, fun b => readThrough_set_fault_result α key
    encode decode ds st now fGet fSet b⟩
  subst h
  exact readThrough_error_store α key encode decode e st now fGet fSet

/-- C4 counterexample: with a stale entry cached for user 1 and the Data
Source holding a different record, a successful cache get returns the
cached record while a failed cache get returns the fresh one — so cache-get
failures do change the value returned, refuting the claim as stated. -/
theorem C4_counterexample :
    (CachedUserRepository.FindByID (fun _ => Except.ok userB) 1 c2Store 0
      false false).result = Except.ok userA ∧
    (CachedUserRepository.FindByID (fun _ => Except.ok userB) 1 c2Store 0
      true false).result = Except.ok userB ∧
    userA ≠ userB := ⟨rfl, rfl, by decide⟩

/-- C4 amended: each cached read returns an error exactly when the Data
Source call it performs errors; that error is returned unchanged and no
cache write happens; and a cache-set failure never changes the result (a
cache-get or deserialization failure degrades to a direct Data Source read,
which may return a fresher value than the cached one). -/
theorem C4_failure_semantics :
    (∀ ds st now fGet fSet,
      (∀ e, (CachedUserRepository.FindAll ds st now fGet fSet).result =
          Except.error e ↔
        ((CachedUserRepository.FindAll ds st now fGet fSet).dsCalled =
          true ∧ ds = Except.error e)) ∧
      (∀ e, ds = Except.error e →
        (CachedUserRepository.FindAll ds st now fGet fSet).store = st) ∧
      (∀ b, (CachedUserRepository.FindAll ds st now fGet fSet).result =
        (CachedUserRepository.FindAll ds st now fGet b).result)) ∧
    (∀ ds id st now fGet fSet,
      (∀ e, (CachedUserRepository.FindByID ds id st now fGet fSet).result =
          Except.error e ↔
        ((CachedUserRepository.FindByID ds id st now fGet fSet).dsCalled =
          true ∧ ds id = Except.error e)) ∧
      (∀ e, ds id = Except.error e →
        (CachedUserRepository.FindByID ds id st now fGet fSet).store = st) ∧
      (∀ b, (CachedUserRepository.FindByID ds id st now fGet fSet).result =
        (CachedUserRepository.FindByID ds id st now fGet b).result)) ∧
    (∀ ds limit offset st now fGet fSet,
      (∀ e, (CachedPostRepository.FindAllWithDetails ds limit offset st now
          fGet fSet).result = Except.error e ↔
        ((CachedPostRepository.FindAllWithDetails ds limit offset st now
          fGet fSet).dsCalled = true ∧ ds limit offset = Except.error e)) ∧
      (∀ e, ds limit offset = Except.error e →
        (CachedPostRepository.FindAllWithDetails ds limit offset st now fGet
          fSet).store = st) ∧
      (∀ b, (CachedPostRepository.FindAllWithDetails ds limit offset st now
          fGet fSet).result =
        (CachedPostRepository.FindAllWithDetails ds limit offset st now fGet
          b).result)) ∧
    (∀ ds id st now fGet fSet,
      (∀ e, (CachedPostRepository.FindByIDWithDetails ds id st now fGet
          fSet).result = Except.error e ↔
        ((CachedPostRepository.FindByIDWithDetails ds id st now fGet
          fSet).dsCalled = true ∧ ds id = Except.error e)) ∧
      (∀ e, ds id = Except.error e →
        (CachedPostRepository.FindByIDWithDetails ds id st now fGet
          fSet).store = st) ∧
      (∀ b, (CachedPostRepository.FindByIDWithDetails ds id st now fGet
          fSet).result =
        (CachedPostRepository.FindByIDWithDetails ds id st now fGet
          b).result)) ∧
    (∀ ds slug st now fGet fSet,
      (∀ e, (CachedPostRepository.FindBySlugWithDetails ds slug st now fGet
          fSet).result = Except.error e ↔
        ((CachedPostRepository.FindBySlugWithDetails ds slug st now fGet
          fSet).dsCalled = true ∧ ds slug = Except.error e)) ∧
      (∀ e, ds slug = Except.error e →
        (CachedPostRepository.FindBySlugWithDetails ds slug st now fGet
          fSet).store = st) ∧
      (∀ b, (CachedPostRepository.FindBySlugWithDetails ds slug st now fGet
          fSet).result =
        (CachedPostRepository.FindBySlugWithDetails ds slug st now fGet
          b).result)) ∧
    (∀ ds slug limit offset st now fGet fSet,
      (∀ e, (CachedPostRepository.FindByCategoryWithDetails ds slug limit
          offset st now fGet fSet).result = Except.error e ↔
        ((CachedPostRepository.FindByCategoryWithDetails ds slug limit
          offset st now fGet fSet).dsCalled = true ∧
          ds slug limit offset = Except.error e)) ∧
      (∀ e, ds slug limit offset = Except.error e →
        (CachedPostRepository.FindByCategoryWithDetails ds slug limit offset
          st now fGet fSet).store = st) ∧
      (∀ b, (CachedPostRepository.FindByCategoryWithDetails ds slug limit
          offset st now fGet fSet).result =
        (CachedPostRepository.FindByCategoryWithDetails ds slug limit offset
          st now fGet b).result)) ∧
    (∀ ds slug limit offset st now fGet fSet,
      (∀ e, (CachedPostRepository.FindByTagWithDetails ds slug limit offset
          st now fGet fSet).result = Except.error e ↔
        ((CachedPostRepository.FindByTagWithDetails ds slug limit offset st
          now fGet fSet).dsCalled = true ∧
          ds slug limit offset = Except.error e)) ∧
      (∀ e, ds slug limit offset = Except.error e →
        (CachedPostRepository.FindByTagWithDetails ds slug limit offset st
          now fGet fSet).store = st) ∧
      (∀ b, (CachedPostRepository.FindByTagWithDetails ds slug limit offset
          st now fGet fSet).result =
        (CachedPostRepository.FindByTagWithDetails ds slug limit offset st
          now fGet b).result)) ∧
    (∀ ds limit st now fGet fSet,
      (∀ e, (CachedPostRepository.FindFeaturedWithDetails ds limit st now
          fGet fSet).result = Except.error e ↔
        ((CachedPostRepository.FindFeaturedWithDetails ds limit st now fGet
          fSet).dsCalled = true ∧ ds limit = Except.error e)) ∧
      (∀ e, ds limit = Except.error e →
        (CachedPostRepository.FindFeaturedWithDetails ds limit st now fGet
          fSet).store = st) ∧
      (∀ b, (CachedPostRepository.FindFeaturedWithDetails ds limit st now
          fGet fSet).result =
        (CachedPostRepository.FindFeaturedWithDetails ds limit st now fGet
          b).result)) ∧
    (∀ ds st now fGet fSet,
      (∀ e, (CachedPostRepository.GetTotalCount ds st now fGet fSet).result =
          Except.error e ↔
        ((CachedPostRepository.GetTotalCount ds st now fGet fSet).dsCalled =
          true ∧ ds = Except.error e)) ∧
      (∀ e, ds = Except.error e →
        (CachedPostRepository.GetTotalCount ds st now fGet fSet).store =
          st) ∧
      (∀ b, (CachedPostRepository.GetTotalCount ds st now fGet fSet).result =
        (CachedPostRepository.GetTotalCount ds st now fGet b).result)) := by
  refine ⟨?_, ?_, ?_, ?_, ?_, ?_, ?_, ?_, ?_⟩
  · exact fun ds st now fGet fSet =>
      readThrough_errors (List User) usersAllKey Payload.userListVal
        decodeUserList ds st now fGet fSet
  · exact fun ds id st now fGet fSet =>
      readThrough_errors User (getCacheKey id) Payload.userVal decodeUser
        (ds id) st now fGet fSet
  · exact fun ds limit offset st now fGet fSet =>
      readThrough_errors (List PostWithDetails) (postsAllKey limit offset)
        Payload.postListVal decodePostList (ds limit offset) st now fGet
        fSet
  · exact fun ds id st now fGet fSet =>
      readThrough_errors PostWithDetails (getPostCacheKey id)
        Payload.postVal decodePost (ds id) st now fGet fSet
  · exact fun ds slug st now fGet fSet =>
      readThrough_errors PostWithDetails (postSlugKey slug) Payload.postVal
        decodePost (ds slug) st now fGet fSet
  · exact fun ds slug limit offset st now fGet fSet =>
      readThrough_errors (List PostWithDetails)
        (postsCategoryKey slug limit offset) Payload.postListVal
        decodePostList (ds slug limit offset) st now fGet fSet
  · exact fun ds slug limit offset st now fGet fSet =>
      readThrough_errors (List PostWithDetails)
        (postsTagKey slug limit offset) Payload.postListVal decodePostList
        (ds slug limit offset) st now fGet fSet
  · exact fun ds limit st now fGet fSet =>
      readThrough_errors (List PostWithDetails) (postsFeaturedKey limit)
        Payload.postListVal decodePostList (ds limit) st now fGet fSet
  · exact fun ds st now fGet fSet =>
      readThrough_errors Int postsTotalCountKey Payload.intVal decodeInt ds
        st now fGet fSet

/-- C4 witness: a Data Source failure on an expired entry surfaces
unchanged and writes nothing to the cache. -/
theorem C4_failure_semantics_witness :
    (CachedUserRepository.FindAll (Except.error ("down")) c2Store 5000 false
      false).result = Except.error ("down") ∧
    (CachedUserRepository.FindAll (Except.error ("down")) c2Store 5000 false
      false).store = c2Store := by
  have h := C4_failure_semantics.1 (Except.error ("down")) c2Store 5000
    false false
  exact ⟨(h.1 ("down")).mpr ⟨rfl, rfl⟩, h.2.1 ("down") rfl⟩

/-! Claim C3. -/

/-- C3: the create, update and delete user endpoints behave identically for
every value of the `no_cache` query parameter (it is never consulted on a
write path), and on a successful Data Source write the cache-backed path
runs its invalidation, deleting `users:all`. -/
theorem C3_writes_never_bypassed :
    (∀ p1 p2 bindOk ds name email age st fDel,
      endpointCreateUser p1 bindOk ds name email age st fDel =
        endpointCreateUser p2 bindOk ds name email age st fDel) ∧
    (∀ p1 p2 bindOk dsF dsU id name email age st now fGet fSet f1 f2,
      endpointUpdateUser p1 bindOk dsF dsU id name email age st now fGet
          fSet f1 f2 =
        endpointUpdateUser p2 bindOk dsF dsU id name email age st now fGet
          fSet f1 f2) ∧
    (∀ p1 p2 ds id st f1 f2,
      endpointDeleteUser p1 ds id st f1 f2 =
        endpointDeleteUser p2 ds id st f1 f2) ∧
    (∀ p ds name email age st v,
      ds ⟨0, name, email, age, 0, 0⟩ = Except.ok v →
      lookupEntry (endpointCreateUser p true ds name email age st false).2
        usersAllKey = none) ∧
    (∀ p dsF dsU id name email age st now fGet fSet u,
      (CachedUserRepository.FindByID dsF id st now fGet fSet).result =
        Except.ok u →
      (∀ u', dsU u' = Except.ok ()) →
      lookupEntry (endpointUpdateUser p true dsF dsU id name email age st
        now fGet fSet false false).2 usersAllKey = none) ∧
    (∀ p ds id st, ds id = Except.ok () →
      lookupEntry (endpointDeleteUser p ds id st false false).2 usersAllKey
        = none) := by
  refine ⟨fun p1 p2 bindOk ds name email age st fDel => rfl,
    fun p1 p2 bindOk dsF dsU id name email age st now fGet fSet f1 f2 =>
      rfl,
    fun p1 p2 ds id st f1 f2 => rfl, ?_, ?_, ?_⟩
  · intro p ds name email age st v h
    unfold endpointCreateUser UserUsecase.CreateUser
      CachedUserRepository.Create
    rw [if_neg (by decide)]
    dsimp only
    rw [h]
    dsimp only
    rw [redisDel_no_fault]
    exact lookupEntry_eraseKey_self st usersAllKey
  · intro p dsF dsU id name email age st now fGet fSet u hfind hok
    unfold endpointUpdateUser UserUsecase.UpdateUser
    rw [if_neg (by decide)]
    dsimp only
    rw [hfind]
    dsimp only
    unfold CachedUserRepository.Update
    rw [hok]
    dsimp only
    rw [redisDel_no_fault, redisDel_no_fault]
    exact lookupEntry_eraseKey_self _ usersAllKey
  · intro p ds id st h
    unfold endpointDeleteUser UserUsecase.DeleteUser
      CachedUserRepository.Delete
    rw [h]
    dsimp only
    rw [redisDel_no_fault, redisDel_no_fault]
    exact lookupEntry_eraseKey_self _ usersAllKey

/-- C3 witness: with the bypass parameter set on the request, a successful
create and delete still run their invalidation. -/
theorem C3_writes_never_bypassed_witness :
    lookupEntry (endpointCreateUser ("true") true (fun u => Except.ok u)
      ("A") ("a@example.com") none c2Store false).2 usersAllKey = none ∧
    lookupEntry (endpointDeleteUser ("1") (fun _ => Except.ok ()) 1 c2Store
      false false).2 usersAllKey = none ∧
    endpointDeleteUser ("true") (fun _ => Except.ok ()) 1 c2Store false
        false =
      endpointDeleteUser ("") (fun _ => Except.ok ()) 1 c2Store false
        false := by
  refine ⟨C3_writes_never_bypassed.2.2.2.1 ("true") _ ("A")
    ("a@example.com") none c2Store ⟨0, "A", "a@example.com", none, 0, 0⟩
    rfl, C3_writes_never_bypassed.2.2.2.2.2 ("1") _ 1 c2Store rfl,
    C3_writes_never_bypassed.2.2.1 ("true") ("") _ 1 c2Store false false⟩

/-! Claim C7. -/

/-- C7: the `no_cache` parameter selects the direct usecase exactly for the
strings true and 1; the selection helper picks the direct usecase exactly
when the flag is set; a bypassed post read issues zero Cache Store calls,
leaves the store untouched and returns the direct usecase result; any other
parameter value behaves exactly like an absent parameter (cache-backed);
and likewise for the user read endpoint with its generated binding. -/
theorem C7_bypass_selection :
    (∀ v, parseNoCache v = true ↔ (v = "true" ∨ v = "1")) ∧
    (∀ (α : Type) (uc duc : α), selectUsecase uc duc true = duc ∧
      selectUsecase uc duc false = uc) ∧
    (∀ v ds id st now fGet fSet, parseNoCache v = true →
      endpointGetPostByID v ds id st now fGet fSet =
        ⟨(PostUsecase.GetPostByID ds id).result, st, 0,
          (PostUsecase.GetPostByID ds id).bgTasks⟩) ∧
    (∀ v ds id st now fGet fSet, parseNoCache v = false →
      endpointGetPostByID v ds id st now fGet fSet =
        endpointGetPostByID ("") ds id st now fGet fSet) ∧
    (∀ raw ds st now fGet fSet, raw = some ("true") ∨ raw = some ("1") →
      endpointGetUsers raw ds st now fGet fSet = ⟨ds, st, 0, []⟩) ∧
    (∀ raw ds st now fGet fSet, raw ≠ some ("true") → raw ≠ some ("1") →
      endpointGetUsers raw ds st now fGet fSet =
        endpointGetUsers none ds st now fGet fSet) := by
  refine ⟨?_, fun α uc duc => ⟨rfl, rfl⟩, ?_, ?_, ?_, ?_⟩
  · intro v
    unfold parseNoCache
    simp
  · intro v ds id st now fGet fSet h
    unfold endpointGetPostByID
    rw [h]
    rfl
  · intro v ds id st now fGet fSet h
    unfold endpointGetPostByID
    rw [h]
    rfl
  · intro raw ds st now fGet fSet h
    rcases h with rfl | rfl <;> rfl
  · intro raw ds st now fGet fSet h1 h2
    cases raw with
    | none => rfl
    | some v =>
      have hv1 : (v == "true") = false :=
        beq_eq_false_iff_ne.mpr (fun hh => h1 (by rw [hh]))
      have hv2 : (v == "1") = false :=
        beq_eq_false_iff_ne.mpr (fun hh => h2 (by rw [hh]))
      unfold endpointGetUsers genBindNoCache
      dsimp only
      rw [hv1, hv2]
      rfl

/-- C7 witness: the value 1 bypasses (zero cache calls, untouched store),
and an unrecognized value behaves like an absent parameter. -/
theorem C7_bypass_selection_witness :
    parseNoCache ("1") = true ∧
    endpointGetPostByID ("1") (fun _ => Except.ok postP) 1 c2Store 0 false
        false =
      ⟨(PostUsecase.GetPostByID (fun _ => Except.ok postP) 1).result,
        c2Store, 0,
        (PostUsecase.GetPostByID (fun _ => Except.ok postP) 1).bgTasks⟩ ∧
    endpointGetUsers (some ("x")) (Except.ok [userA]) c2Store 0 false
        false =
      endpointGetUsers none (Except.ok [userA]) c2Store 0 false false := by
  refine ⟨(C7_bypass_selection.1 ("1")).mpr (Or.inr rfl),
    C7_bypass_selection.2.2.1 ("1") _ 1 c2Store 0 false false rfl,
    C7_bypass_selection.2.2.2.2.2 (some ("x")) _ c2Store 0 false false
      (by decide) (by decide)⟩

/-! Claim C8. -/

/-- C8: after a successful fetch, GetPostByID and GetPostBySlug dispatch the
view-count increment as a background task next to the returned post; no
task is dispatched on failure; running a dispatched task produces nothing
whatever the increment's outcome (its error is discarded); and the response
is independent of the increment behaviour. -/
theorem C8_fire_and_forget :
    (∀ (find : Int → Except String PostWithDetails) (id : Int)
       (p : PostWithDetails), 0 < id → find id = Except.ok p →
      PostUsecase.GetPostByID find id =
        ⟨Except.ok p, [BgTask.incrementViewCount id]⟩) ∧
    (∀ (find : Int → Except String PostWithDetails) id e, 0 < id →
      find id = Except.error e →
      PostUsecase.GetPostByID find id =
        ⟨Except.error ("failed to get post: " ++ e), []⟩) ∧
    (∀ (find : String → Except String PostWithDetails) slug p, slug ≠ "" →
      find slug = Except.ok p →
      PostUsecase.GetPostBySlug find slug =
        ⟨Except.ok p, [BgTask.incrementViewCount p.post.id]⟩) ∧
    (∀ incr t, PostUsecase.runBgTask incr t = ()) ∧
    (∀ (find : Int → Except String PostWithDetails) id incr1 incr2,
      ((PostUsecase.GetPostByID find id).result,
        (PostUsecase.GetPostByID find id).bgTasks.map
          (PostUsecase.runBgTask incr1)) =
      ((PostUsecase.GetPostByID find id).result,
        (PostUsecase.GetPostByID find id).bgTasks.map
          (PostUsecase.runBgTask incr2))) := by
  refine ⟨?_, ?_, ?_, fun incr t => rfl, ?_⟩
  · intro find id p hid h
    unfold PostUsecase.GetPostByID
    rw [if_neg (by omega), h]
  · intro find id e hid h
    unfold PostUsecase.GetPostByID
    rw [if_neg (by omega), h]
  · intro find slug p hslug h
    unfold PostUsecase.GetPostBySlug
    rw [if_neg hslug, h]
  · intro find id incr1 incr2
    have hfn : PostUsecase.runBgTask incr1 = PostUsecase.runBgTask incr2 :=
      funext fun t => rfl
    rw [hfn]

/-- C8 witness: a concrete successful fetch dispatches the increment and a
failing increment behaviour changes nothing about the response. -/
theorem C8_fire_and_forget_witness :
    PostUsecase.GetPostByID (fun _ => Except.ok postP) 1 =
      ⟨Except.ok postP, [BgTask.incrementViewCount 1]⟩ ∧
    ((PostUsecase.GetPostByID (fun _ => Except.ok postP) 1).result,
      (PostUsecase.GetPostByID (fun _ => Except.ok postP) 1).bgTasks.map
        (PostUsecase.runBgTask (fun _ => Except.error ("incr failed")))) =
    ((PostUsecase.GetPostByID (fun _ => Except.ok postP) 1).result,
      (PostUsecase.GetPostByID (fun _ => Except.ok postP) 1).bgTasks.map
        (PostUsecase.runBgTask (fun _ => Except.ok ()))) := by
  exact ⟨C8_fire_and_forget.1 (fun _ => Except.ok postP) 1 postP (by decide)
    rfl, C8_fire_and_forget.2.2.2.2 (fun _ => Except.ok postP) 1
    (fun _ => Except.error ("incr failed")) (fun _ => Except.ok ())⟩

/-! Claim C10. -/

theorem wrap64_id {n : Int} (h1 : -(2 ^ 63) ≤ n) (h2 : n < 2 ^ 63) :
    wrap64 n = n := by
  unfold wrap64
  have h3 : (0 : Int) ≤ n + 2 ^ 63 := by omega
  have h4 : n + 2 ^ 63 < 2 ^ 64 := by omega
  rw [Int.emod_eq_of_lt h3 h4]
  omega

/-- C10 counterexample: with page equal to the largest `int64` value, the
offset computation `(page - 1) * pageSize` overflows 64-bit arithmetic and
the repository receives the negative offset -40, refuting the claim that
the repository always receives a non-negative offset. -/
theorem C10_counterexample :
    PostUsecase.GetPosts
        (fun limit offset =>
          if offset < 0 then Except.error ("negative offset")
          else Except.ok [])
        (Except.ok 0) 9223372036854775807 20 =
      Except.error ("failed to get posts: negative offset") ∧
    goMul (goSub 9223372036854775807 1) 20 = -40 := ⟨rfl, rfl⟩

/-- C10 amended: for `int64` page values, the three list operations call
the repository with limit pageSize when 1 ≤ pageSize ≤ 100 and limit 20
otherwise, and with offset (max page 1 − 1) × limit computed in 64-bit
arithmetic; the limit always lies in [1, 100], and whenever that product
does not overflow (e.g. for any realistic page) the offset equals the exact
product and is non-negative. -/
theorem C10_pagination_bounds :
    ∀ (page pageSize L off : Int), -(2 ^ 63) ≤ page → page < 2 ^ 63 →
    L = (if 1 ≤ pageSize ∧ pageSize ≤ 100 then pageSize else 20) →
    off = wrap64 ((max page 1 - 1) * L) →
    (∀ r t, PostUsecase.GetPosts r t page pageSize =
      (match r L off with
       | Except.error e => Except.error ("failed to get posts: " ++ e)
       | Except.ok posts =>
         match t with
         | Except.error e =>
           Except.error ("failed to get total count: " ++ e)
         | Except.ok total => Except.ok (posts, total))) ∧
    (∀ r slug, slug ≠ "" →
      PostUsecase.GetPostsByCategory r slug page pageSize =
      (match r slug L off with
       | Except.error e =>
         Except.error ("failed to get posts by category: " ++ e)
       | Except.ok posts => Except.ok posts)) ∧
    (∀ r slug, slug ≠ "" →
      PostUsecase.GetPostsByTag r slug page pageSize =
      (match r slug L off with
       | Except.error e =>
         Except.error ("failed to get posts by tag: " ++ e)
       | Except.ok posts => Except.ok posts)) ∧
    (1 ≤ L ∧ L ≤ 100) ∧
    ((max page 1 - 1) * L < 2 ^ 63 →
      off = (max page 1 - 1) * L ∧ 0 ≤ off) := by
  intro page pageSize L off hlo hhi hL hoff
  have hLb : 1 ≤ L ∧ L ≤ 100 := by
    rw [hL]
    split <;> omega
  have hL1 : (if (pageSize < 1 || pageSize > 100 : Bool) then (20 : Int)
      else pageSize) = L := by
    rw [hL]
    by_cases hc : 1 ≤ pageSize ∧ pageSize ≤ 100
    · rw [if_neg (by simp only [Bool.or_eq_true, decide_eq_true_eq]; omega),
        if_pos hc]
    · rw [if_pos (by simp only [Bool.or_eq_true, decide_eq_true_eq]; omega),
        if_neg hc]
  have hP1 : (if page < 1 then (1 : Int) else page) = max page 1 := by
    split <;> omega
  have hmaxlo : (1 : Int) ≤ max page 1 := by omega
  have hmaxhi : max page 1 < 2 ^ 63 := by omega
  have hsub : goSub (max page 1) 1 = max page 1 - 1 := by
    unfold goSub
    exact wrap64_id (by omega) (by omega)
  have hoffEq : goMul (goSub (max page 1) 1) L = off := by
    unfold goMul
    rw [hsub, hoff]
  refine ⟨?_, ?_, ?_, hLb, ?_⟩
  · intro r t
    unfold PostUsecase.GetPosts
    dsimp only
    rw [hL1, hP1, hoffEq]
  · intro r slug hslug
    unfold PostUsecase.GetPostsByCategory
    rw [if_neg hslug]
    dsimp only
    rw [hL1, hP1, hoffEq]
  · intro r slug hslug
    unfold PostUsecase.GetPostsByTag
    rw [if_neg hslug]
    dsimp only
    rw [hL1, hP1, hoffEq]
  · intro hov
    have hnn : (0 : Int) ≤ (max page 1 - 1) * L :=
      Int.mul_nonneg (by omega) (by omega)
    rw [hoff, wrap64_id (by omega) hov]
    omega

/-- C10 witness: a realistic page and page size reach the repository with
the exact limit and non-negative offset. -/
theorem C10_pagination_bounds_witness :
    PostUsecase.GetPosts (fun l o => Except.ok []) (Except.ok 7) 5 10 =
      Except.ok ([], 7) ∧
    (1 ≤ (10 : Int) ∧ (10 : Int) ≤ 100) ∧
    wrap64 ((max (5 : Int) 1 - 1) * 10) = (max (5 : Int) 1 - 1) * 10 := by
  have h := C10_pagination_bounds 5 10 10 40 (by decide) (by decide)
    (by decide) (by decide)
  exact ⟨(h.1 (fun l o => Except.ok []) (Except.ok 7)).trans rfl,
    h.2.2.2.1, ((h.2.2.2.2 (by decide)).1).symm.trans (by decide)⟩

/-! Claim C5. -/

theorem uaGet0 : usersAllKey.data[0]? = some 'u' := by decide

theorem uaGet4 : usersAllKey.data[4]? = some 's' := by decide

theorem tcGet0 : postsTotalCountKey.data[0]? = some 'p' := by decide

theorem tcGet4 : postsTotalCountKey.data[4]? = some 's' := by decide

theorem tcGet6 : postsTotalCountKey.data[6]? = some 't' := by decide

theorem tcGet7 : postsTotalCountKey.data[7]? = some 'o' := by decide

/-- C5: the nine cache-key derivations never collide — distinct operations
or distinct discriminating parameters (IDs, slugs, limit/offset pairs)
always yield distinct key strings, even for slugs containing the colon
delimiter. -/
theorem C5_key_derivation_injective :
    ∀ c1 c2 : ReadCall, c1 ≠ c2 → deriveKey c1 ≠ deriveKey c2 := by
  intro c1 c2 hne
  cases c1 with
  | userAll =>
    cases c2 with
    | userAll => exact absurd rfl hne
    | userByID b => exact keyNe uaGet4 (uiGet4 b) (by decide)
    | postAll l o => exact keyNe uaGet0 (paGet0 l o) (by decide)
    | postByID b => exact keyNe uaGet0 (piGet0 b) (by decide)
    | postBySlug s => exact keyNe uaGet0 (psGet0 s) (by decide)
    | postsByCategory s l o => exact keyNe uaGet0 (pcGet0 s l o) (by decide)
    | postsByTag s l o => exact keyNe uaGet0 (ptGet0 s l o) (by decide)
    | postsFeatured l => exact keyNe uaGet0 (pfGet0 l) (by decide)
    | postsTotalCount => exact keyNe uaGet0 tcGet0 (by decide)
  | userByID a =>
    cases c2 with
    | userAll => exact keyNe (uiGet4 a) uaGet4 (by decide)
    | userByID b =>
      intro h
      exact hne (congrArg ReadCall.userByID (getCacheKey_inj h))
    | postAll l o => exact keyNe (uiGet0 a) (paGet0 l o) (by decide)
    | postByID b => exact keyNe (uiGet0 a) (piGet0 b) (by decide)
    | postBySlug s => exact keyNe (uiGet0 a) (psGet0 s) (by decide)
    | postsByCategory s l o =>
      exact keyNe (uiGet0 a) (pcGet0 s l o) (by decide)
    | postsByTag s l o => exact keyNe (uiGet0 a) (ptGet0 s l o) (by decide)
    | postsFeatured l => exact keyNe (uiGet0 a) (pfGet0 l) (by decide)
    | postsTotalCount => exact keyNe (uiGet0 a) tcGet0 (by decide)
  | postAll l1 o1 =>
    cases c2 with
    | userAll => exact keyNe (paGet0 l1 o1) uaGet0 (by decide)
    | userByID b => exact keyNe (paGet0 l1 o1) (uiGet0 b) (by decide)
    | postAll l2 o2 =>
      intro h
      obtain ⟨hl, ho⟩ := postsAllKey_inj h
      exact hne (by rw [hl, ho])
    | postByID b => exact keyNe (paGet4 l1 o1) (piGet4 b) (by decide)
    | postBySlug s => exact keyNe (paGet4 l1 o1) (psGet4 s) (by decide)
    | postsByCategory s l o =>
      exact keyNe (paGet6 l1 o1) (pcGet6 s l o) (by decide)
    | postsByTag s l o =>
      exact keyNe (paGet6 l1 o1) (ptGet6 s l o) (by decide)
    | postsFeatured l => exact keyNe (paGet6 l1 o1) (pfGet6 l) (by decide)
    | postsTotalCount => exact keyNe (paGet6 l1 o1) tcGet6 (by decide)
  | postByID a =>
    cases c2 with
    | userAll => exact keyNe (piGet0 a) uaGet0 (by decide)
    | userByID b => exact keyNe (piGet0 a) (uiGet0 b) (by decide)
    | postAll l o => exact keyNe (piGet4 a) (paGet4 l o) (by decide)
    | postByID b =>
      intro h
      exact hne (congrArg ReadCall.postByID (getPostCacheKey_inj h))
    | postBySlug s => exact getPostCacheKey_ne_postSlugKey a s
    | postsByCategory s l o =>
      exact keyNe (piGet4 a) (pcGet4 s l o) (by decide)
    | postsByTag s l o => exact keyNe (piGet4 a) (ptGet4 s l o) (by decide)
    | postsFeatured l => exact keyNe (piGet4 a) (pfGet4 l) (by decide)
    | postsTotalCount => exact keyNe (piGet4 a) tcGet4 (by decide)
  | postBySlug s1 =>
    cases c2 with
    | userAll => exact keyNe (psGet0 s1) uaGet0 (by decide)
    | userByID b => exact keyNe (psGet0 s1) (uiGet0 b) (by decide)
    | postAll l o => exact keyNe (psGet4 s1) (paGet4 l o) (by decide)
    | postByID b => exact Ne.symm (getPostCacheKey_ne_postSlugKey b s1)
    | postBySlug s2 =>
      intro h
      exact hne (congrArg ReadCall.postBySlug (postSlugKey_inj h))
    | postsByCategory s l o =>
      exact keyNe (psGet4 s1) (pcGet4 s l o) (by decide)
    | postsByTag s l o => exact keyNe (psGet4 s1) (ptGet4 s l o) (by decide)
    | postsFeatured l => exact keyNe (psGet4 s1) (pfGet4 l) (by decide)
    | postsTotalCount => exact keyNe (psGet4 s1) tcGet4 (by decide)
  | postsByCategory s1 l1 o1 =>
    cases c2 with
    | userAll => exact keyNe (pcGet0 s1 l1 o1) uaGet0 (by decide)
    | userByID b => exact keyNe (pcGet0 s1 l1 o1) (uiGet0 b) (by decide)
    | postAll l o => exact keyNe (pcGet6 s1 l1 o1) (paGet6 l o) (by decide)
    | postByID b => exact keyNe (pcGet4 s1 l1 o1) (piGet4 b) (by decide)
    | postBySlug s => exact keyNe (pcGet4 s1 l1 o1) (psGet4 s) (by decide)
    | postsByCategory s2 l2 o2 =>
      intro h
      obtain ⟨hs, hl, ho⟩ := postsCategoryKey_inj h
      exact hne (by rw [hs, hl, ho])
    | postsByTag s l o =>
      exact keyNe (pcGet6 s1 l1 o1) (ptGet6 s l o) (by decide)
    | postsFeatured l =>
      exact keyNe (pcGet6 s1 l1 o1) (pfGet6 l) (by decide)
    | postsTotalCount => exact keyNe (pcGet6 s1 l1 o1) tcGet6 (by decide)
  | postsByTag s1 l1 o1 =>
    cases c2 with
    | userAll => exact keyNe (ptGet0 s1 l1 o1) uaGet0 (by decide)
    | userByID b => exact keyNe (ptGet0 s1 l1 o1) (uiGet0 b) (by decide)
    | postAll l o => exact keyNe (ptGet6 s1 l1 o1) (paGet6 l o) (by decide)
    | postByID b => exact keyNe (ptGet4 s1 l1 o1) (piGet4 b) (by decide)
    | postBySlug s => exact keyNe (ptGet4 s1 l1 o1) (psGet4 s) (by decide)
    | postsByCategory s l o =>
      exact keyNe (ptGet6 s1 l1 o1) (pcGet6 s l o) (by decide)
    | postsByTag s2 l2 o2 =>
      intro h
      obtain ⟨hs, hl, ho⟩ := postsTagKey_inj h
      exact hne (by rw [hs, hl, ho])
    | postsFeatured l =>
      exact keyNe (ptGet6 s1 l1 o1) (pfGet6 l) (by decide)
    | postsTotalCount => exact keyNe (ptGet7 s1 l1 o1) tcGet7 (by decide)
  | postsFeatured l1 =>
    cases c2 with
    | userAll => exact keyNe (pfGet0 l1) uaGet0 (by decide)
    | userByID b => exact keyNe (pfGet0 l1) (uiGet0 b) (by decide)
    | postAll l o => exact keyNe (pfGet6 l1) (paGet6 l o) (by decide)
    | postByID b => exact keyNe (pfGet4 l1) (piGet4 b) (by decide)
    | postBySlug s => exact keyNe (pfGet4 l1) (psGet4 s) (by decide)
    | postsByCategory s l o =>
      exact keyNe (pfGet6 l1) (pcGet6 s l o) (by decide)
    | postsByTag s l o => exact keyNe (pfGet6 l1) (ptGet6 s l o) (by decide)
    | postsFeatured l2 =>
      intro h
      exact hne (congrArg ReadCall.postsFeatured (postsFeaturedKey_inj h))
    | postsTotalCount => exact keyNe (pfGet6 l1) tcGet6 (by decide)
  | postsTotalCount =>
    cases c2 with
    | userAll => exact keyNe tcGet0 uaGet0 (by decide)
    | userByID b => exact keyNe tcGet0 (uiGet0 b) (by decide)
    | postAll l o => exact keyNe tcGet6 (paGet6 l o) (by decide)
    | postByID b => exact keyNe tcGet4 (piGet4 b) (by decide)
    | postBySlug s => exact keyNe tcGet4 (psGet4 s) (by decide)
    | postsByCategory s l o => exact keyNe tcGet6 (pcGet6 s l o) (by decide)
    | postsByTag s l o => exact keyNe tcGet7 (ptGet7 s l o) (by decide)
    | postsFeatured l => exact keyNe tcGet6 (pfGet6 l) (by decide)
    | postsTotalCount => exact absurd rfl hne

/-- C5 witness: two calls whose slug contains the colon delimiter still get
distinct keys. -/
theorem C5_key_derivation_injective_witness :
    deriveKey (ReadCall.postsByCategory ("a:limit=1") 2 3) ≠
      deriveKey (ReadCall.postsByCategory ("a") 1 2) ∧
    deriveKey (ReadCall.postBySlug ("x:y")) ≠
      deriveKey (ReadCall.postsByTag ("x") 1 2) := by
  exact ⟨C5_key_derivation_injective _ _ (by decide),
    C5_key_derivation_injective _ _ (by decide)⟩

end TestAPI
